import Mathlib

/-!
Shallow embedding of the credit-decisioning pipeline
(`src/credit_decisioning/data/load_lendingclub.py`,
`src/credit_decisioning/app/main.py`, `scripts/train_lgbm.py`,
`scripts/data_quality.py`).

Dataframes are modelled as a list of column names together with a list of
rows; a row is an association list from column name to cell value.  Machine
floats are modelled as exact rationals (`ℚ`); the missing value (NaN / pd.NA /
NaT) is the distinguished cell `Val.na`.
-/

namespace CreditDec

/-- A cell of a dataframe: missing (NaN/pd.NA/NaT), a number, a string, or a
parsed month-year date (what `pd.to_datetime(..., format="%b-%Y")` yields). -/
inductive Val where
  | na : Val
  | num : ℚ → Val
  | str : String → Val
  | date : Nat → Nat → Val
deriving DecidableEq, Repr

/-- A dataframe row: association list column-name → cell. -/
abbrev Row := List (String × Val)

/-- Does the row have a column of this name? (`col in df.columns`, per row). -/
def Row.hasCol (r : Row) (c : String) : Bool :=
  r.any (fun p => p.1 == c)

/-- Read a cell (`df[c]`, per row): value of the first column with this name.
On a missing column this yields `na`; in the pipeline below every read is
guarded by column presence, mirroring pandas, which raises `KeyError`. -/
def Row.get : Row → String → Val
  | [], _ => Val.na
  | p :: r, c => if p.1 = c then p.2 else Row.get r c

/-- Overwrite every column with this name (label-based assignment touches all
occurrences of a duplicated label). -/
def Row.setAll : Row → String → Val → Row
  | [], _, _ => []
  | p :: r, c, v => (if p.1 = c then (p.1, v) else p) :: Row.setAll r c v

/-- Write a cell (`df[c] = v`, per row): update the column in place when it
exists, else append it as the last column. -/
def Row.set (r : Row) (c : String) (v : Val) : Row :=
  if Row.hasCol r c then Row.setAll r c v else r ++ [(c, v)]

/-- Remove a column from the row (`df.drop(columns=[c])`, per row). -/
def Row.dropKey (r : Row) (c : String) : Row :=
  r.filter (fun p => p.1 ≠ c)

/-- A dataframe: column names plus rows. -/
structure Table where
  cols : List String
  rows : List Row
deriving DecidableEq, Repr

/-- `df[c] = f(df)` column assignment: updates the column in place when
present, else appends it. -/
def Table.assign (t : Table) (c : String) (f : Row → Val) : Table :=
  { cols := if t.cols.contains c then t.cols else t.cols ++ [c],
    rows := t.rows.map (fun r => Row.set r c (f r)) }

/-- Guarded assignment, `if c in df.columns: df[c] = ...`. -/
def Table.assignIf (t : Table) (c : String) (f : Row → Val) : Table :=
  if t.cols.contains c then t.assign c f else t

/-- Row filtering (`df.dropna(subset=[...])` style row selection). -/
def Table.filterRows (t : Table) (p : Row → Bool) : Table :=
  { t with rows := t.rows.filter p }

/-- `df.drop(columns=[c])`. -/
def Table.dropCol (t : Table) (c : String) : Table :=
  { cols := t.cols.filter (fun c2 => c2 ≠ c),
    rows := t.rows.map (fun r => Row.dropKey r c) }

/-! ### Scorer (`src/credit_decisioning/app/main.py`) -/

/-- A JSON value arriving in `ScoreRequest.features` (a `Dict[str, Any]`). -/
inductive PyVal where
  | num : ℚ → PyVal
  | str : String → PyVal
  | null : PyVal
deriving DecidableEq, Repr

/-- Line 48 and 51: `pd.get_dummies(pd.DataFrame([req.features]), dummy_na=True)`
on the one-row frame built from the request mapping.  Numeric columns pass
through first, in mapping order; each string or null column is one-hot
encoded, its indicator columns appended afterwards in column order.  For a
single row holding the string `s`, the dummies of column `c` are `c_s = 1`
and (from `dummy_na=True`) `c_nan = 0`; for a null cell the only dummy is
`c_nan = 1`. -/
def getDummiesRow (fs : List (String × PyVal)) : List (String × ℚ) :=
  (fs.filterMap (fun p => match p.2 with
    | PyVal.num q => some (p.1, q)
    | _ => none))
  ++ (fs.flatMap (fun p => match p.2 with
    | PyVal.num _ => []
    | PyVal.str s => [(p.1 ++ "_" ++ s, (1 : ℚ)), (p.1 ++ "_nan", (0 : ℚ))]
    | PyVal.null => [(p.1 ++ "_nan", (1 : ℚ))]))

/-- `c in X.columns` for the encoded one-row frame. -/
def keyIn (X : List (String × ℚ)) (c : String) : Bool :=
  X.any (fun p => p.1 == c)

/-- The value of the first column labelled `c`, 0 when there is none. -/
def lookupQ : List (String × ℚ) → String → ℚ
  | [], _ => 0
  | p :: X, c => if p.1 = c then p.2 else lookupQ X c

/-- Lines 54-56: `for col in feature_names: if col not in X.columns: X[col] = 0`. -/
def fillMissing (X : List (String × ℚ)) (names : List String) : List (String × ℚ) :=
  names.foldl (fun acc c => if keyIn acc c then acc else acc ++ [(c, 0)]) X

/-- Line 57: `X = X[feature_names]` — label-based selection: every column
whose label equals a requested name is returned, grouped in request order. -/
def selectByNames (X : List (String × ℚ)) (names : List String) : List (String × ℚ) :=
  names.flatMap (fun c => X.filter (fun p => p.1 == c))

/-- Lines 54-57: fill the missing persisted columns with 0, then select the
persisted columns. -/
def alignFeatures (X : List (String × ℚ)) (names : List String) : List (String × ℚ) :=
  selectByNames (fillMissing X names) names

/-- Lines 47-57 of `score`: the one-row feature vector handed to
`model.predict_proba`. -/
def scoreVector (features : List (String × PyVal)) (names : List String) :
    List (String × ℚ) :=
  alignFeatures (getDummiesRow features) names

/-- Lines 61-67: the fixed three-way threshold policy on the predicted
probability. -/
def decisionPolicy (proba : ℚ) : String :=
  if proba < 3/100 then "approve"
  else if proba < 8/100 then "review"
  else "reject"

/-- Strictness rank of a decision, ordering approve < review < reject. -/
def decisionRank (d : String) : Nat :=
  if d = "approve" then 0 else if d = "review" then 1 else 2

/-- The persisted model bundle: the fitted classifier (abstracted to its
positive-class `predict_proba` output on the one-row frame) together with the
persisted ordered feature-name list. -/
structure Bundle where
  predictProba : List (String × ℚ) → ℚ
  feature_names : List String

def MODEL_PATH : String := "artifacts/models/lgbm_model.joblib"

/-- `load_model` (lines 26-32).  The filesystem is abstracted as the optional
content of `MODEL_PATH`. -/
def load_model (store : Option Bundle) : Except String Bundle :=
  match store with
  | none => Except.error
      ("Model not found at " ++ MODEL_PATH ++ ". Run: python scripts/train_all.py")
  | some b => Except.ok b

structure ScoreResponse where
  pd : ℚ
  decision : String
  reasons : List String

/-- `GET /health` (lines 35-37). -/
def health : List (String × String) := [("status", "ok")]

/-- `POST /score` (lines 40-69).  A missing bundle raises `FileNotFoundError`,
re-raised as `HTTPException(status_code=500, detail=str(e))`; the error case
carries the HTTP status code and the detail message. -/
def score (store : Option Bundle) (features : List (String × PyVal)) :
    Except (Nat × String) ScoreResponse :=
  match load_model store with
  | Except.error e => Except.error (500, e)
  | Except.ok b =>
      let X := scoreVector features b.feature_names
      let proba := b.predictProba X
      Except.ok
        { pd := proba, decision := decisionPolicy proba, reasons := ["baseline_policy"] }

/-! ### Trainer feature-name pipeline (`scripts/train_lgbm.py`) -/

/-- The character class `[0-9a-zA-Z_]` of `sanitize_feature_names`. -/
def isWordChar (c : Char) : Bool := c.isDigit || c.isAlpha || c == '_'

/-- `re.sub(r"[^0-9a-zA-Z_]+", "_", c)`: replace every maximal run of
characters outside `[0-9a-zA-Z_]` with a single underscore.  The Boolean flag
records whether the previous character was part of a run already replaced. -/
def sanitizeChars : Bool → List Char → List Char
  | _, [] => []
  | inRun, c :: cs =>
      if isWordChar c then c :: sanitizeChars false cs
      else if inRun then sanitizeChars true cs
      else '_' :: sanitizeChars true cs

def sanitizeName (s : String) : String := String.mk (sanitizeChars false s.toList)

/-- `sanitize_feature_names` (lines 31-40). -/
def sanitize_feature_names (columns : List String) : List String :=
  columns.map sanitizeName

/-- Line 67: `X.loc[:, ~X.columns.duplicated()]` keeps the first occurrence
of each column name. -/
def dedupFirst (seen : List String) : List String → List String
  | [] => []
  | c :: cs =>
      if seen.contains c then dedupFirst seen cs
      else c :: dedupFirst (c :: seen) cs

/-- Lines 66-67 of the trainer: sanitize the one-hot column names, then drop
accidental duplicate columns. -/
def trainerNamePipeline (rawCols : List String) : List String :=
  dedupFirst [] (sanitize_feature_names rawCols)

/-! ### Loader (`src/credit_decisioning/data/load_lendingclub.py`) -/

def monthAbbrevs : List String :=
  ["Jan", "Feb", "Mar", "Apr", "May", "Jun", "Jul", "Aug", "Sep", "Oct", "Nov", "Dec"]

def digitsToNat (ds : List Char) : Nat :=
  ds.foldl (fun n c => 10 * n + (c.toNat - 48)) 0

/-- Digits of a `%Y` year field. -/
def parseYearDigits (cs : List Char) : Option Nat :=
  if !cs.isEmpty && cs.all Char.isDigit then some (digitsToNat cs) else none

/-- One cell of `pd.to_datetime(..., format="%b-%Y", errors="coerce")` on a
string: a three-letter month abbreviation (case-insensitive, as in strptime's
C locale), a dash, and a year. -/
def parseMonthYear (s : String) : Option (Nat × Nat) :=
  match s.toList with
  | m1 :: m2 :: m3 :: '-' :: rest =>
      match monthAbbrevs.findIdx?
          (fun a => a.toList.map Char.toLower == [m1, m2, m3].map Char.toLower),
        parseYearDigits rest with
      | some i, some yy => some (i + 1, yy)
      | _, _ => none
  | _ => none

/-- `pd.to_datetime(col, format="%b-%Y", errors="coerce")` on one cell: an
unparseable string coerces to `NaT` (here `na`); datetime input passes
through unchanged; with an explicit format any other input coerces to
`NaT`. -/
def toDatetimeVal : Val → Val
  | Val.str s =>
      match parseMonthYear s with
      | some (m, y) => Val.date m y
      | none => Val.na
  | Val.date m y => Val.date m y
  | _ => Val.na

def pad2 (n : Nat) : String := if n < 10 then "0" ++ toString n else toString n

def pad4 (n : Nat) : String :=
  if n < 10 then "000" ++ toString n
  else if n < 100 then "00" ++ toString n
  else if n < 1000 then "0" ++ toString n
  else toString n

/-- `.dt.to_period("M").astype(str)` on one cell, rendered `"YYYY-MM"` (`NaT`
renders as the string "NaT"; in the pipeline the cell is always a parsed date
when this runs, because NaT rows were dropped just before). -/
def periodM : Val → Val
  | Val.date m y => Val.str (pad4 y ++ "-" ++ pad2 m)
  | _ => Val.str "NaT"

def bad_statuses : List String :=
  ["Charged Off", "Default", "Late (31-120 days)", "Late (16-30 days)",
   "Does not meet the credit policy. Status:Charged Off"]

def good_statuses : List String :=
  ["Fully Paid", "Does not meet the credit policy. Status:Fully Paid"]

/-- `Series.astype(str)` on one cell: a missing value renders as the string
"nan".  A numeric or datetime cell is rendered by `str`; the exact numeric
rendering is immaterial downstream (it is never a status string and never
reappears in a parse), and the loader feeds these paths from string-typed
CSV columns. -/
def astypeStr : Val → String
  | Val.na => "nan"
  | Val.str s => s
  | Val.num q =>
      if q.den = 1 then toString q.num else toString q.num ++ "/" ++ toString q.den
  | Val.date m y => pad4 y ++ "-" ++ pad2 m ++ "-01"

/-- `build_target` (lines 45-72) on one status cell: the series starts as
`pd.NA`, rows whose status is in the bad set are assigned 1, then rows whose
status is in the good set are assigned 0 — so the good set takes precedence
and everything outside both sets stays `pd.NA`. -/
def build_target (status : Val) : Val :=
  let s := astypeStr status
  if good_statuses.contains s then Val.num 0
  else if bad_statuses.contains s then Val.num 1
  else Val.na

/-- Mantissa of a decimal literal: digits with an optional fractional part;
returns the integer digits, the fraction digits, and the unconsumed rest. -/
def parseMantissa (cs : List Char) : Option (List Char × List Char × List Char) :=
  let intPart := cs.takeWhile Char.isDigit
  let rest := cs.dropWhile Char.isDigit
  match rest with
  | '.' :: fracRest =>
      let fracPart := fracRest.takeWhile Char.isDigit
      let rest2 := fracRest.dropWhile Char.isDigit
      if intPart.isEmpty && fracPart.isEmpty then none
      else some (intPart, fracPart, rest2)
  | _ => if intPart.isEmpty then none else some (intPart, [], rest)

/-- Optionally signed exponent digits. -/
def parseExponent (cs : List Char) : Option Int :=
  match cs with
  | '+' :: ds =>
      if !ds.isEmpty && ds.all Char.isDigit then some (digitsToNat ds) else none
  | '-' :: ds =>
      if !ds.isEmpty && ds.all Char.isDigit then some (-(digitsToNat ds : Int)) else none
  | ds =>
      if !ds.isEmpty && ds.all Char.isDigit then some (digitsToNat ds) else none

/-- The rational `±(ip.fp)·10^ex`, built with integer arithmetic. -/
def ratOfParts (neg : Bool) (ip fp : List Char) (ex : Int) : ℚ :=
  let base : Nat := digitsToNat ip * 10 ^ fp.length + digitsToNat fp
  let mag : Nat := if 0 ≤ ex then base * 10 ^ ex.toNat else base
  let den : Nat := if 0 ≤ ex then 10 ^ fp.length else 10 ^ fp.length * 10 ^ (-ex).toNat
  mkRat (if neg then -(mag : Int) else (mag : Int)) den

def parseSignedNumber (neg : Bool) (cs : List Char) : Option ℚ :=
  match parseMantissa cs with
  | none => none
  | some (ip, fp, rest) =>
      match rest with
      | [] => some (ratOfParts neg ip fp 0)
      | 'e' :: es => (parseExponent es).map (fun k => ratOfParts neg ip fp k)
      | 'E' :: es => (parseExponent es).map (fun k => ratOfParts neg ip fp k)
      | _ => none

/-- `pd.to_numeric(s, errors="coerce")` on one string: an optionally signed
decimal literal with optional exponent, anything else coercing to `NaN`.
(The pandas parser additionally strips surrounding whitespace and accepts
the special words inf/nan; no claim of this development touches those, and
the "nan" cells are replaced by `pd.NA` before the only relevant call.) -/
def toNumeric (s : String) : Option ℚ :=
  match s.toList with
  | '+' :: rest => parseSignedNumber false rest
  | '-' :: rest => parseSignedNumber true rest
  | rest => parseSignedNumber false rest

/-- `str.replace("%", "", regex=False)`: removes every occurrence of the
one-character pattern. -/
def stripPercents (s : String) : String :=
  String.mk (s.toList.filter (fun c => c ≠ '%'))

/-- Lines 168-171 on one cell:
`astype(str).str.replace("%", "", regex=False).replace("nan", pd.NA)` then
`pd.to_numeric(..., errors="coerce")`.  A missing cell renders as "nan" and
is replaced by `pd.NA`; a numeric cell round-trips through its decimal
rendering; a string cell has every "%" removed and is then parsed,
non-numeric remainders coercing to `NaN`. -/
def percentNormalizeVal : Val → Val
  | Val.na => Val.na
  | Val.num q => Val.num q
  | Val.date m y =>
      match toNumeric (stripPercents (pad4 y ++ "-" ++ pad2 m ++ "-01")) with
      | some q => Val.num q
      | none => Val.na
  | Val.str s =>
      let s2 := stripPercents s
      if s2 = "nan" then Val.na
      else
        match toNumeric s2 with
        | some q => Val.num q
        | none => Val.na

/-- First maximal digit run of the character list (`.str.extract(r"(\d+)")`). -/
def extractDigits : List Char → Option (List Char)
  | [] => none
  | c :: rest =>
      if c.isDigit then some (c :: rest.takeWhile Char.isDigit) else extractDigits rest

/-- Lines 174-176 on one cell: `astype(str).str.extract(r"(\d+)")[0]` takes
the first maximal digit run (no run giving `NaN`), then
`pd.to_numeric(..., errors="coerce")`.  The `term` column is read with string
dtype, so its cells are strings or missing. -/
def termNormalizeVal (v : Val) : Val :=
  match extractDigits (astypeStr v).toList with
  | some ds => Val.num (digitsToNat ds)
  | none => Val.na

/-- `pd.to_numeric(col, errors="coerce")` on one cell of the best-effort
numeric coercion (lines 191-193); the columns it is applied to are read as
float32, so their cells are numeric or missing. -/
def toNumericVal : Val → Val
  | Val.num q => Val.num q
  | Val.na => Val.na
  | Val.str s =>
      match toNumeric s with
      | some q => Val.num q
      | none => Val.na
  | Val.date m y =>
      match toNumeric (pad4 y ++ "-" ++ pad2 m ++ "-01") with
      | some q => Val.num q
      | none => Val.na

def USECOLS : List String :=
  ["issue_d", "loan_status", "loan_amnt", "term", "int_rate", "installment",
   "grade", "sub_grade", "emp_length", "home_ownership", "annual_inc",
   "verification_status", "purpose", "addr_state", "dti", "delinq_2yrs",
   "inq_last_6mths", "open_acc", "pub_rec", "revol_bal", "revol_util",
   "total_acc", "application_type"]

def numeric_cols : List String :=
  ["loan_amnt", "installment", "annual_inc", "dti", "delinq_2yrs",
   "inq_last_6mths", "open_acc", "pub_rec", "revol_bal", "total_acc"]

/-- `pd.read_csv(..., usecols=USECOLS)`: keeps exactly the requested columns,
in the file's order; pandas raises when a requested column is missing. -/
def selectUsecols (t : Table) : Table :=
  { cols := t.cols.filter (fun c => USECOLS.contains c),
    rows := t.rows.map (fun r => r.filter (fun p => USECOLS.contains p.1)) }

def usecolsErrMsg : String := "Usecols do not match columns"

def issueKeyErrMsg : String := "issue_d not found in raw dataset. Needed for OOT validation."

def parseRateErrMsg : String := "issue_d parse_rate too low. Check raw format."

/-- Lines 148-150 (chunk loop) and, identically, lines 156-160: parse
`issue_d`, drop the `NaT` rows, derive `issue_month`. -/
def chunkStage (d : Table) : Table :=
  ((d.assign "issue_d" (fun r => toDatetimeVal (Row.get r "issue_d"))).filterRows
      (fun r => Row.get r "issue_d" != Val.na)).assign "issue_month"
    (fun r => periodM (Row.get r "issue_d"))

/-- Lines 163-165: build the target, drop unlabeled rows (the `astype(int)`
keeps the 0/1 values). -/
def targetStage (d : Table) : Table :=
  (d.assign "target" (fun r => build_target (Row.get r "loan_status"))).filterRows
    (fun r => Row.get r "target" != Val.na)

/-- Lines 168-171: normalize the percent fields. -/
def percentStage (d : Table) : Table :=
  (d.assignIf "int_rate" (fun r => percentNormalizeVal (Row.get r "int_rate"))).assignIf
    "revol_util" (fun r => percentNormalizeVal (Row.get r "revol_util"))

/-- Lines 174-176: normalize the term field. -/
def termStage (d : Table) : Table :=
  d.assignIf "term" (fun r => termNormalizeVal (Row.get r "term"))

/-- Lines 179-193: best-effort numeric coercion. -/
def numericStage (d : Table) : Table :=
  numeric_cols.foldl (fun d c => d.assignIf c (fun r => toNumericVal (Row.get r c))) d

/-- Lines 195-197: drop the leakage column when present. -/
def dropLeakStage (d : Table) : Table :=
  if d.cols.contains "loan_status" then d.dropCol "loan_status" else d

/-- `load_and_normalize` (lines 75-212) on the raw table.  The chunked read
(lines 139-153) applies per-row operations chunkwise and concatenates, which
equals applying them to the whole table.  In the parse-rate check (line 205),
pandas' `mean` over an empty column is `NaN` and `NaN < 0.95` is false, so
the abort branch additionally requires a nonempty frame. -/
def load_and_normalize (t : Table) : Except String Table :=
  if USECOLS.all (fun c => t.cols.contains c) then
    let df7 := dropLeakStage (numericStage (termStage (percentStage
      (targetStage (chunkStage (chunkStage (selectUsecols t)))))))
    if df7.cols.contains "issue_d" then
      let df8 := df7.assign "issue_d" (fun r => toDatetimeVal (Row.get r "issue_d"))
      let n := df8.rows.length
      let k := (df8.rows.filter (fun r => Row.get r "issue_d" != Val.na)).length
      if n ≠ 0 ∧ (k : ℚ) / (n : ℚ) < 95 / 100 then Except.error parseRateErrMsg
      else Except.ok (df8.assign "issue_month" (fun r => periodM (Row.get r "issue_d")))
    else Except.error issueKeyErrMsg
  else Except.error usecolsErrMsg

/-- Does the row survive the pipeline: its issue date parses (lines 148-149)
and its status is labelled (lines 163-164)? -/
def keepRow (r : Row) : Bool :=
  (toDatetimeVal (Row.get r "issue_d") != Val.na) &&
  (build_target (Row.get r "loan_status") != Val.na)

/-- Per-row effect of `df["issue_d"] = pd.to_datetime(df["issue_d"], ...)`. -/
def stepIssue (r : Row) : Row :=
  Row.set r "issue_d" (toDatetimeVal (Row.get r "issue_d"))

/-- Per-row effect of `df["issue_month"] = df["issue_d"].dt.to_period("M")...`. -/
def stepMonth (r : Row) : Row :=
  Row.set r "issue_month" (periodM (Row.get r "issue_d"))

/-- Per-row effect of `df["target"] = build_target(df)`. -/
def stepTarget (r : Row) : Row :=
  Row.set r "target" (build_target (Row.get r "loan_status"))

/-- Per-row effect of the percent normalization of `int_rate`. -/
def stepIntRate (r : Row) : Row :=
  Row.set r "int_rate" (percentNormalizeVal (Row.get r "int_rate"))

/-- Per-row effect of the percent normalization of `revol_util`. -/
def stepRevol (r : Row) : Row :=
  Row.set r "revol_util" (percentNormalizeVal (Row.get r "revol_util"))

/-- Per-row effect of the term normalization. -/
def stepTermRow (r : Row) : Row :=
  Row.set r "term" (termNormalizeVal (Row.get r "term"))

/-- Per-row effect of the best-effort numeric coercion loop. -/
def stepNumeric (r : Row) : Row :=
  numeric_cols.foldl (fun rr c => Row.set rr c (toNumericVal (Row.get rr c))) r

/-- Per-row effect of dropping the leakage column. -/
def stepDrop (r : Row) : Row :=
  Row.dropKey r "loan_status"

/-- The Row-level composition of the pipeline's column assignments up to the
parse-rate check (line 205), as a surviving (usecols-restricted) row
undergoes them. -/
def normRowCore (r : Row) : Row :=
  stepIssue (stepDrop (stepNumeric (stepTermRow (stepRevol (stepIntRate
    (stepTarget (stepMonth (stepIssue (stepMonth (stepIssue r))))))))))

/-- The full Row-level transformation of a surviving row, ending with the
final `issue_month` assignment (line 210). -/
def normRow (r : Row) : Row :=
  stepMonth (normRowCore r)

/-- The column list of the normalized table. -/
def normCols (t : Table) : List String :=
  ((selectUsecols t).cols.filter (fun c => c ≠ "loan_status")) ++ ["issue_month", "target"]

/-- The normalized table: the usecols-restricted rows that survive the date
parse and the labelling, each transformed column-wise. -/
def normTable (t : Table) : Table :=
  { cols := normCols t,
    rows := ((selectUsecols t).rows.filter keepRow).map normRow }

/-! ### Quality reporter (`scripts/data_quality.py`) -/

/-- The report document (`report` dict, lines 29-36). -/
structure QualityReport where
  dataset_path : String
  n_rows : Nat
  n_cols : Nat
  n_duplicates : Nat
  null_rate_by_col : List (String × Option ℚ)
  target_distribution : List (Val × Nat)
deriving DecidableEq, Repr

/-- `int(df.duplicated().sum())`: rows equal to an earlier row (pandas marks
every occurrence after the first). -/
def countDuplicates : List Row → List Row → Nat
  | _, [] => 0
  | seen, r :: rs => (if r ∈ seen then 1 else 0) + countDuplicates (r :: seen) rs

/-- `.round(6)` as pandas rounds floats: half-to-even at six decimals. -/
def round6 (q : ℚ) : ℚ :=
  let x := q * 1000000
  let f : Int := x.floor
  let frac := x - (f : ℚ)
  let n : Int :=
    if frac < 1 / 2 then f
    else if frac > 1 / 2 then f + 1
    else if f % 2 = 0 then f else f + 1
  (n : ℚ) / 1000000

/-- One entry of `df.isna().mean().round(6)`: the fraction of missing cells;
pandas' mean over an empty column is `NaN`, encoded `none`. -/
def nullRateCol (rows : List Row) (c : String) : Option ℚ :=
  if rows.length = 0 then none
  else some (round6
    (((rows.filter (fun r => Row.get r c = Val.na)).length : ℚ) / (rows.length : ℚ)))

/-- Distinct values in first-occurrence order. -/
def distinctVals (seen : List Val) : List Val → List Val
  | [] => []
  | v :: vs => if v ∈ seen then distinctVals seen vs else v :: distinctVals (v :: seen) vs

/-- `df["target"].value_counts(dropna=False)`: occurrence count per distinct
value, explicit nulls counted as their own bucket.  (pandas lists the buckets
by descending count; the bucket order plays no role in the properties below
and both runs of a comparison use the same order.) -/
def valueCounts (vs : List Val) : List (Val × Nat) :=
  (distinctVals [] vs).map (fun v => (v, vs.count v))

/-- The report computed from the processed table (lines 29-36). -/
def mkReport (df : Table) : QualityReport :=
  { dataset_path := "data/processed/train.parquet",
    n_rows := df.rows.length,
    n_cols := df.cols.length,
    n_duplicates := countDuplicates [] df.rows,
    null_rate_by_col := df.cols.map (fun c => (c, nullRateCol df.rows c)),
    target_distribution := valueCounts (df.rows.map (fun r => Row.get r "target")) }

/-- The files the quality step touches: the processed dataset it reads and
the report file it writes. -/
structure FS where
  processed : Option Table
  report : Option QualityReport
deriving DecidableEq

/-- `main` of `scripts/data_quality.py` (lines 17-42): missing input file and
missing target column abort; otherwise the report is computed from the input
and written to the report path, leaving the dataset untouched. -/
def data_quality_main (fs : FS) : Except String (FS × QualityReport) :=
  match fs.processed with
  | none => Except.error "Processed dataset not found: data/processed/train.parquet"
  | some df =>
      if df.cols.contains "target" then
        Except.ok ({ fs with report := some (mkReport df) }, mkReport df)
      else Except.error "Missing required column: target"

/-! ### Concrete example data (used by witnesses) -/

/-- A raw row with every usecols column populated. -/
def mkRawRow (d s ir : String) : Row :=
  [("issue_d", Val.str d), ("loan_status", Val.str s), ("loan_amnt", Val.num 1000),
   ("term", Val.str " 36 months"), ("int_rate", Val.str ir), ("installment", Val.num 30),
   ("grade", Val.str "A"), ("sub_grade", Val.str "A1"), ("emp_length", Val.str "10+ years"),
   ("home_ownership", Val.str "RENT"), ("annual_inc", Val.num 50000),
   ("verification_status", Val.str "Verified"), ("purpose", Val.str "car"),
   ("addr_state", Val.str "CA"), ("dti", Val.num 10), ("delinq_2yrs", Val.num 0),
   ("inq_last_6mths", Val.num 0), ("open_acc", Val.num 5), ("pub_rec", Val.num 0),
   ("revol_bal", Val.num 100), ("revol_util", Val.str "13.56%"), ("total_acc", Val.num 7),
   ("application_type", Val.str "Individual")]

/-- A raw table: a good loan, a bad loan with missing rate, an in-progress
loan, and a row with an unparseable issue date. -/
def exampleRaw : Table :=
  { cols := USECOLS,
    rows := [mkRawRow "Dec-2015" "Fully Paid" "13.56%", mkRawRow "Feb-2016" "Default" "nan",
             mkRawRow "Jan-2016" "Current" "2%", mkRawRow "nodate" "Fully Paid" "1%"] }

/-- A raw table in which every row has an unparseable issue date. -/
def badDatesRaw : Table :=
  { cols := USECOLS,
    rows := [mkRawRow "notadate" "Fully Paid" "1%", mkRawRow "alsobad" "Charged Off" "2%"] }

/-- A small processed table with a target column. -/
def exampleProcessed : Table :=
  { cols := ["target", "loan_amnt"],
    rows := [[("target", Val.num 1), ("loan_amnt", Val.num 5)],
             [("target", Val.num 0), ("loan_amnt", Val.na)]] }

/-- An example filesystem state for the quality step. -/
def exampleFS : FS := { processed := some exampleProcessed, report := none }

/-! ### Basic row and table lemmas -/

@[simp] theorem Table.rows_assign (t : Table) (c : String) (f : Row → Val) :
    (t.assign c f).rows = t.rows.map (fun r => Row.set r c (f r)) := rfl

@[simp] theorem Table.cols_assign (t : Table) (c : String) (f : Row → Val) :
    (t.assign c f).cols =
      if t.cols.contains c then t.cols else t.cols ++ [c] := rfl

@[simp] theorem Table.rows_filterRows (t : Table) (p : Row → Bool) :
    (t.filterRows p).rows = t.rows.filter p := rfl

@[simp] theorem Table.cols_filterRows (t : Table) (p : Row → Bool) :
    (t.filterRows p).cols = t.cols := rfl

@[simp] theorem Table.rows_dropCol (t : Table) (c : String) :
    (t.dropCol c).rows = t.rows.map (fun r => Row.dropKey r c) := rfl

@[simp] theorem Table.cols_dropCol (t : Table) (c : String) :
    (t.dropCol c).cols = t.cols.filter (fun c2 => c2 ≠ c) := rfl

theorem Row.get_setAll_self (r : Row) (c : String) (v : Val)
    (h : Row.hasCol r c = true) : Row.get (Row.setAll r c v) c = v := by
  induction r with
  | nil => simp [Row.hasCol] at h
  | cons p r ih =>
      by_cases hp : p.1 = c
      · simp [Row.setAll, Row.get, hp]
      · have h2 : Row.hasCol r c = true := by
          simpa [Row.hasCol, List.any_cons, hp] using h
        simp [Row.setAll, Row.get, hp, ih h2]

theorem Row.get_append_self (r : Row) (c : String) (v : Val)
    (h : Row.hasCol r c = false) : Row.get (r ++ [(c, v)]) c = v := by
  induction r with
  | nil => simp [Row.get]
  | cons p r ih =>
      have hp : ¬ p.1 = c := by
        intro hp
        simp [Row.hasCol, List.any_cons, hp] at h
      have h2 : Row.hasCol r c = false := by
        simpa [Row.hasCol, List.any_cons, hp] using h
      simp [Row.get, hp, ih h2]

theorem Row.get_set_self (r : Row) (c : String) (v : Val) :
    Row.get (Row.set r c v) c = v := by
  unfold Row.set
  by_cases h : Row.hasCol r c
  · simp [h, Row.get_setAll_self r c v h]
  · simp only [Bool.not_eq_true] at h
    simp [h, Row.get_append_self r c v h]

theorem Row.get_setAll_ne (r : Row) (c c2 : String) (v : Val) (h : c2 ≠ c) :
    Row.get (Row.setAll r c v) c2 = Row.get r c2 := by
  induction r with
  | nil => simp [Row.setAll]
  | cons p r ih =>
      by_cases hp : p.1 = c
      · have hc2 : ¬ c = c2 := fun hq => h hq.symm
        simp [Row.setAll, Row.get, hp, hc2, ih]
      · simp only [Row.setAll, if_neg hp]
        by_cases hp2 : p.1 = c2
        · simp [Row.get, hp2]
        · simp [Row.get, hp2, ih]

theorem Row.get_append_ne (r : Row) (c c2 : String) (v : Val) (h : c2 ≠ c) :
    Row.get (r ++ [(c, v)]) c2 = Row.get r c2 := by
  induction r with
  | nil =>
      have : ¬ c = c2 := fun hc => h hc.symm
      simp [Row.get, this]
  | cons p r ih =>
      by_cases hp : p.1 = c2
      · simp [Row.get, hp]
      · simp [Row.get, hp, ih]

theorem Row.get_set_ne (r : Row) (c c2 : String) (v : Val) (h : c2 ≠ c) :
    Row.get (Row.set r c v) c2 = Row.get r c2 := by
  unfold Row.set
  by_cases hc : Row.hasCol r c
  · simp [hc, Row.get_setAll_ne r c c2 v h]
  · simp only [Bool.not_eq_true] at hc
    simp [hc, Row.get_append_ne r c c2 v h]

theorem Row.get_dropKey_ne (r : Row) (c c2 : String) (h : c2 ≠ c) :
    Row.get (Row.dropKey r c) c2 = Row.get r c2 := by
  unfold Row.dropKey
  simp only [ne_eq]
  induction r with
  | nil => simp
  | cons p r ih =>
      simp only [decide_not] at ih
      by_cases hp : p.1 = c
      · have hc2 : ¬ c = c2 := fun hq => h hq.symm
        simp [List.filter_cons, hp, Row.get, hc2, ih]
      · simp [List.filter_cons, hp, Row.get, ih]

theorem Row.get_dropKey_self (r : Row) (c : String) :
    Row.get (Row.dropKey r c) c = Val.na := by
  unfold Row.dropKey
  simp only [ne_eq]
  induction r with
  | nil => simp [Row.get]
  | cons p r ih =>
      simp only [decide_not] at ih
      by_cases hp : p.1 = c
      · simpa [List.filter_cons, hp] using ih
      · simp [List.filter_cons, hp, Row.get, ih]

theorem Row.keys_dropKey (r : Row) (c : String) :
    ∀ p ∈ Row.dropKey r c, p.1 ≠ c := by
  intro p hp
  have := List.of_mem_filter hp
  simpa using this

/-! ### Loader pipeline lemmas -/

theorem numericFold_spec (cs : List String) :
    ∀ d : Table, (∀ c ∈ cs, d.cols.contains c = true) →
      cs.foldl (fun d c => d.assignIf c (fun r => toNumericVal (Row.get r c))) d =
        { cols := d.cols,
          rows := d.rows.map
            (fun r => cs.foldl (fun rr c => Row.set rr c (toNumericVal (Row.get rr c))) r) } := by
  induction cs with
  | nil => intro d h; simp
  | cons c cs ih =>
      intro d h
      have hc : d.cols.contains c = true := h c (List.mem_cons_self c cs)
      have hcm : c ∈ d.cols := List.elem_iff.mp hc
      have step : d.assignIf c (fun r => toNumericVal (Row.get r c)) =
          { cols := d.cols,
            rows := d.rows.map (fun r => Row.set r c (toNumericVal (Row.get r c))) } := by
        simp [Table.assignIf, Table.assign, List.elem_eq_mem, hcm]
      rw [List.foldl_cons, step]
      have ih2 := ih
        { cols := d.cols, rows := d.rows.map (fun r => Row.set r c (toNumericVal (Row.get r c))) }
        (fun c2 h2 => h c2 (List.mem_cons_of_mem c h2))
      rw [ih2]
      simp [List.map_map, List.foldl_cons, Function.comp]

theorem toDatetimeVal_idem (v : Val) : toDatetimeVal (toDatetimeVal v) = toDatetimeVal v := by
  cases v with
  | str s =>
      cases h : parseMonthYear s with
      | none => simp [toDatetimeVal, h]
      | some p => cases p with
          | mk m y => simp [toDatetimeVal, h]
  | na => rfl
  | num q => rfl
  | date m y => rfl

theorem pipelineRows8 (rows0 : List Row) :
    (List.map
      (fun r => Row.set r "issue_d" (toDatetimeVal (Row.get r "issue_d")))
      (List.map
      (fun r => Row.dropKey r "loan_status")
      (List.map
      (fun r => numeric_cols.foldl (fun rr c => Row.set rr c (toNumericVal (Row.get rr c))) r)
      (List.map
      (fun r => Row.set r "term" (termNormalizeVal (Row.get r "term")))
      (List.map
      (fun r => Row.set r "revol_util" (percentNormalizeVal (Row.get r "revol_util")))
      (List.map
      (fun r => Row.set r "int_rate" (percentNormalizeVal (Row.get r "int_rate")))
      (List.filter
      (fun r => Row.get r "target" != Val.na)
      (List.map
      (fun r => Row.set r "target" (build_target (Row.get r "loan_status")))
      (List.map
      (fun r => Row.set r "issue_month" (periodM (Row.get r "issue_d")))
      (List.filter
      (fun r => Row.get r "issue_d" != Val.na)
      (List.map
      (fun r => Row.set r "issue_d" (toDatetimeVal (Row.get r "issue_d")))
      (List.map
      (fun r => Row.set r "issue_month" (periodM (Row.get r "issue_d")))
      (List.filter
      (fun r => Row.get r "issue_d" != Val.na)
      (List.map
      (fun r => Row.set r "issue_d" (toDatetimeVal (Row.get r "issue_d")))
      (rows0))))))))))))))) = (rows0.filter keepRow).map normRowCore := by
  simp only [List.filter_map, List.map_map, List.filter_filter]
  have hP : ∀ r : Row,
      (((fun r => Row.get r "target" != Val.na) ∘
          (fun r => Row.set r "target" (build_target (Row.get r "loan_status"))) ∘
            (fun r => Row.set r "issue_month" (periodM (Row.get r "issue_d"))) ∘
              (fun r => Row.set r "issue_d" (toDatetimeVal (Row.get r "issue_d"))) ∘
                (fun r => Row.set r "issue_month" (periodM (Row.get r "issue_d"))) ∘ fun r =>
                  Row.set r "issue_d" (toDatetimeVal (Row.get r "issue_d"))) r &&
        (((fun r => Row.get r "issue_d" != Val.na) ∘
              (fun r => Row.set r "issue_d" (toDatetimeVal (Row.get r "issue_d"))) ∘
                (fun r => Row.set r "issue_month" (periodM (Row.get r "issue_d"))) ∘ fun r =>
                  Row.set r "issue_d" (toDatetimeVal (Row.get r "issue_d"))) r &&
          ((fun r => Row.get r "issue_d" != Val.na) ∘ fun r =>
              Row.set r "issue_d" (toDatetimeVal (Row.get r "issue_d"))) r)) = keepRow r := by
    intro r
    have n1 : ("loan_status" : String) ≠ "issue_month" := by decide
    have n2 : ("loan_status" : String) ≠ "issue_d" := by decide
    have n3 : ("issue_d" : String) ≠ "issue_month" := by decide
    simp only [Function.comp, Row.get_set_self, Row.get_set_ne, n1, n2, n3,
      toDatetimeVal_idem, ne_eq, not_false_iff]
    cases hA : (toDatetimeVal (Row.get r "issue_d") != Val.na) <;>
      cases hB : (build_target (Row.get r "loan_status") != Val.na) <;>
        simp [keepRow, hA, hB]
  rw [List.filter_congr (fun r _ => hP r)]
  refine List.map_congr_left (fun r _ => ?_)
  simp only [Function.comp, normRowCore, stepIssue, stepDrop, stepNumeric, stepTermRow,
    stepRevol, stepIntRate, stepTarget, stepMonth]



theorem get_rowFold_ne (cs : List String) (d : String) (h : d ∉ cs) :
    ∀ r : Row,
      Row.get (cs.foldl (fun rr c => Row.set rr c (toNumericVal (Row.get rr c))) r) d
        = Row.get r d := by
  induction cs with
  | nil => intro r; rfl
  | cons c cs ih =>
      intro r
      rw [List.foldl_cons, ih (fun hm => h (List.mem_cons_of_mem c hm))]
      exact Row.get_set_ne _ _ _ _ (fun he => h (he ▸ List.mem_cons_self c cs))

theorem get_stepIssue_self (r : Row) :
    Row.get (stepIssue r) "issue_d" = toDatetimeVal (Row.get r "issue_d") :=
  Row.get_set_self _ _ _

theorem get_stepIssue_ne (r : Row) (c : String) (h : c ≠ "issue_d") :
    Row.get (stepIssue r) c = Row.get r c :=
  Row.get_set_ne _ _ _ _ h

theorem get_stepMonth_ne (r : Row) (c : String) (h : c ≠ "issue_month") :
    Row.get (stepMonth r) c = Row.get r c :=
  Row.get_set_ne _ _ _ _ h

theorem get_stepTarget_self (r : Row) :
    Row.get (stepTarget r) "target" = build_target (Row.get r "loan_status") :=
  Row.get_set_self _ _ _

theorem get_stepTarget_ne (r : Row) (c : String) (h : c ≠ "target") :
    Row.get (stepTarget r) c = Row.get r c :=
  Row.get_set_ne _ _ _ _ h

theorem get_stepIntRate_self (r : Row) :
    Row.get (stepIntRate r) "int_rate" = percentNormalizeVal (Row.get r "int_rate") :=
  Row.get_set_self _ _ _

theorem get_stepIntRate_ne (r : Row) (c : String) (h : c ≠ "int_rate") :
    Row.get (stepIntRate r) c = Row.get r c :=
  Row.get_set_ne _ _ _ _ h

theorem get_stepRevol_self (r : Row) :
    Row.get (stepRevol r) "revol_util" = percentNormalizeVal (Row.get r "revol_util") :=
  Row.get_set_self _ _ _

theorem get_stepRevol_ne (r : Row) (c : String) (h : c ≠ "revol_util") :
    Row.get (stepRevol r) c = Row.get r c :=
  Row.get_set_ne _ _ _ _ h

theorem get_stepTermRow_ne (r : Row) (c : String) (h : c ≠ "term") :
    Row.get (stepTermRow r) c = Row.get r c :=
  Row.get_set_ne _ _ _ _ h

theorem get_stepNumeric_ne (r : Row) (c : String) (h : c ∉ numeric_cols) :
    Row.get (stepNumeric r) c = Row.get r c :=
  get_rowFold_ne _ _ h r

theorem get_stepDrop_ne (r : Row) (c : String) (h : c ≠ "loan_status") :
    Row.get (stepDrop r) c = Row.get r c :=
  Row.get_dropKey_ne _ _ _ h

theorem get_normRowCore_issue (r : Row) :
    Row.get (normRowCore r) "issue_d" = toDatetimeVal (Row.get r "issue_d") := by
  unfold normRowCore
  rw [get_stepIssue_self, get_stepDrop_ne _ _ (by decide),
    get_stepNumeric_ne _ _ (by decide), get_stepTermRow_ne _ _ (by decide),
    get_stepRevol_ne _ _ (by decide), get_stepIntRate_ne _ _ (by decide),
    get_stepTarget_ne _ _ (by decide), get_stepMonth_ne _ _ (by decide),
    get_stepIssue_self, get_stepMonth_ne _ _ (by decide), get_stepIssue_self,
    toDatetimeVal_idem, toDatetimeVal_idem]

theorem get_normRow_issue (r : Row) :
    Row.get (normRow r) "issue_d" = toDatetimeVal (Row.get r "issue_d") := by
  unfold normRow
  rw [get_stepMonth_ne _ _ (by decide), get_normRowCore_issue]

theorem get_normRow_target (r : Row) :
    Row.get (normRow r) "target" = build_target (Row.get r "loan_status") := by
  unfold normRow normRowCore
  rw [get_stepMonth_ne _ _ (by decide), get_stepIssue_ne _ _ (by decide),
    get_stepDrop_ne _ _ (by decide), get_stepNumeric_ne _ _ (by decide),
    get_stepTermRow_ne _ _ (by decide), get_stepRevol_ne _ _ (by decide),
    get_stepIntRate_ne _ _ (by decide), get_stepTarget_self,
    get_stepMonth_ne _ _ (by decide), get_stepIssue_ne _ _ (by decide),
    get_stepMonth_ne _ _ (by decide), get_stepIssue_ne _ _ (by decide)]

theorem get_normRow_int_rate (r : Row) :
    Row.get (normRow r) "int_rate" = percentNormalizeVal (Row.get r "int_rate") := by
  unfold normRow normRowCore
  rw [get_stepMonth_ne _ _ (by decide), get_stepIssue_ne _ _ (by decide),
    get_stepDrop_ne _ _ (by decide), get_stepNumeric_ne _ _ (by decide),
    get_stepTermRow_ne _ _ (by decide), get_stepRevol_ne _ _ (by decide),
    get_stepIntRate_self, get_stepTarget_ne _ _ (by decide),
    get_stepMonth_ne _ _ (by decide), get_stepIssue_ne _ _ (by decide),
    get_stepMonth_ne _ _ (by decide), get_stepIssue_ne _ _ (by decide)]

theorem get_normRow_revol_util (r : Row) :
    Row.get (normRow r) "revol_util" = percentNormalizeVal (Row.get r "revol_util") := by
  unfold normRow normRowCore
  rw [get_stepMonth_ne _ _ (by decide), get_stepIssue_ne _ _ (by decide),
    get_stepDrop_ne _ _ (by decide), get_stepNumeric_ne _ _ (by decide),
    get_stepTermRow_ne _ _ (by decide), get_stepRevol_self,
    get_stepIntRate_ne _ _ (by decide), get_stepTarget_ne _ _ (by decide),
    get_stepMonth_ne _ _ (by decide), get_stepIssue_ne _ _ (by decide),
    get_stepMonth_ne _ _ (by decide), get_stepIssue_ne _ _ (by decide)]

theorem load_and_normalize_spec (t : Table)
    (h : USECOLS.all (fun c => t.cols.contains c) = true) :
    load_and_normalize t = Except.ok (normTable t) := by
  have hall : ∀ c ∈ USECOLS, t.cols.contains c = true := List.all_eq_true.mp h
  have hmem : ∀ c ∈ USECOLS, c ∈ (selectUsecols t).cols :=
    fun c hc => List.mem_filter.mpr ⟨List.elem_iff.mp (hall c hc), List.elem_iff.mpr hc⟩
  have hnotm : ∀ c : String, c ∉ USECOLS → c ∉ (selectUsecols t).cols :=
    fun c hc hx => hc (List.elem_iff.mp (List.mem_filter.mp hx).2)
  have hID : "issue_d" ∈ (selectUsecols t).cols := hmem _ (by decide)
  have hLS : "loan_status" ∈ (selectUsecols t).cols := hmem _ (by decide)
  have hIR : "int_rate" ∈ (selectUsecols t).cols := hmem _ (by decide)
  have hRU : "revol_util" ∈ (selectUsecols t).cols := hmem _ (by decide)
  have hTM : "term" ∈ (selectUsecols t).cols := hmem _ (by decide)
  have hIMn : "issue_month" ∉ (selectUsecols t).cols := hnotm _ (by decide)
  have hTGn : "target" ∉ (selectUsecols t).cols := hnotm _ (by decide)
  have h1 : chunkStage (selectUsecols t) = Table.mk ((selectUsecols t).cols ++ ["issue_month"]) (List.map (fun r => Row.set r "issue_month" (periodM (Row.get r "issue_d"))) (List.filter (fun r => Row.get r "issue_d" != Val.na) (List.map (fun r => Row.set r "issue_d" (toDatetimeVal (Row.get r "issue_d"))) ((selectUsecols t).rows)))) := by
    simp [chunkStage, Table.assign, Table.filterRows, hID, hIMn]
  have hIDc1 : "issue_d" ∈ ((selectUsecols t).cols ++ ["issue_month"]) := List.mem_append_left _ hID
  have hIMc1 : "issue_month" ∈ ((selectUsecols t).cols ++ ["issue_month"]) := List.mem_append_right _ (by decide)
  have h2 : chunkStage (Table.mk ((selectUsecols t).cols ++ ["issue_month"]) (List.map (fun r => Row.set r "issue_month" (periodM (Row.get r "issue_d"))) (List.filter (fun r => Row.get r "issue_d" != Val.na) (List.map (fun r => Row.set r "issue_d" (toDatetimeVal (Row.get r "issue_d"))) ((selectUsecols t).rows))))) = Table.mk ((selectUsecols t).cols ++ ["issue_month"]) (List.map (fun r => Row.set r "issue_month" (periodM (Row.get r "issue_d"))) (List.filter (fun r => Row.get r "issue_d" != Val.na) (List.map (fun r => Row.set r "issue_d" (toDatetimeVal (Row.get r "issue_d"))) (List.map (fun r => Row.set r "issue_month" (periodM (Row.get r "issue_d"))) (List.filter (fun r => Row.get r "issue_d" != Val.na) (List.map (fun r => Row.set r "issue_d" (toDatetimeVal (Row.get r "issue_d"))) ((selectUsecols t).rows))))))) := by
    simp [chunkStage, Table.assign, Table.filterRows, hIDc1, hIMc1]
  have hTGc1 : "target" ∉ ((selectUsecols t).cols ++ ["issue_month"]) := by
    intro hx
    rcases List.mem_append.mp hx with hx | hx
    · exact hTGn hx
    · simp at hx
  have h3 : targetStage (Table.mk ((selectUsecols t).cols ++ ["issue_month"]) (List.map (fun r => Row.set r "issue_month" (periodM (Row.get r "issue_d"))) (List.filter (fun r => Row.get r "issue_d" != Val.na) (List.map (fun r => Row.set r "issue_d" (toDatetimeVal (Row.get r "issue_d"))) (List.map (fun r => Row.set r "issue_month" (periodM (Row.get r "issue_d"))) (List.filter (fun r => Row.get r "issue_d" != Val.na) (List.map (fun r => Row.set r "issue_d" (toDatetimeVal (Row.get r "issue_d"))) ((selectUsecols t).rows)))))))) = Table.mk (((selectUsecols t).cols ++ ["issue_month"]) ++ ["target"]) (List.filter (fun r => Row.get r "target" != Val.na) (List.map (fun r => Row.set r "target" (build_target (Row.get r "loan_status"))) (List.map (fun r => Row.set r "issue_month" (periodM (Row.get r "issue_d"))) (List.filter (fun r => Row.get r "issue_d" != Val.na) (List.map (fun r => Row.set r "issue_d" (toDatetimeVal (Row.get r "issue_d"))) (List.map (fun r => Row.set r "issue_month" (periodM (Row.get r "issue_d"))) (List.filter (fun r => Row.get r "issue_d" != Val.na) (List.map (fun r => Row.set r "issue_d" (toDatetimeVal (Row.get r "issue_d"))) ((selectUsecols t).rows))))))))) := by
    simp [targetStage, Table.assign, Table.filterRows, hTGc1]
  have h4 : percentStage (Table.mk (((selectUsecols t).cols ++ ["issue_month"]) ++ ["target"]) (List.filter (fun r => Row.get r "target" != Val.na) (List.map (fun r => Row.set r "target" (build_target (Row.get r "loan_status"))) (List.map (fun r => Row.set r "issue_month" (periodM (Row.get r "issue_d"))) (List.filter (fun r => Row.get r "issue_d" != Val.na) (List.map (fun r => Row.set r "issue_d" (toDatetimeVal (Row.get r "issue_d"))) (List.map (fun r => Row.set r "issue_month" (periodM (Row.get r "issue_d"))) (List.filter (fun r => Row.get r "issue_d" != Val.na) (List.map (fun r => Row.set r "issue_d" (toDatetimeVal (Row.get r "issue_d"))) ((selectUsecols t).rows)))))))))) = Table.mk (((selectUsecols t).cols ++ ["issue_month"]) ++ ["target"]) (List.map (fun r => Row.set r "revol_util" (percentNormalizeVal (Row.get r "revol_util"))) (List.map (fun r => Row.set r "int_rate" (percentNormalizeVal (Row.get r "int_rate"))) (List.filter (fun r => Row.get r "target" != Val.na) (List.map (fun r => Row.set r "target" (build_target (Row.get r "loan_status"))) (List.map (fun r => Row.set r "issue_month" (periodM (Row.get r "issue_d"))) (List.filter (fun r => Row.get r "issue_d" != Val.na) (List.map (fun r => Row.set r "issue_d" (toDatetimeVal (Row.get r "issue_d"))) (List.map (fun r => Row.set r "issue_month" (periodM (Row.get r "issue_d"))) (List.filter (fun r => Row.get r "issue_d" != Val.na) (List.map (fun r => Row.set r "issue_d" (toDatetimeVal (Row.get r "issue_d"))) ((selectUsecols t).rows))))))))))) := by
    simp [percentStage, Table.assignIf, Table.assign, hIR, hRU]
  have h5 : termStage (Table.mk (((selectUsecols t).cols ++ ["issue_month"]) ++ ["target"]) (List.map (fun r => Row.set r "revol_util" (percentNormalizeVal (Row.get r "revol_util"))) (List.map (fun r => Row.set r "int_rate" (percentNormalizeVal (Row.get r "int_rate"))) (List.filter (fun r => Row.get r "target" != Val.na) (List.map (fun r => Row.set r "target" (build_target (Row.get r "loan_status"))) (List.map (fun r => Row.set r "issue_month" (periodM (Row.get r "issue_d"))) (List.filter (fun r => Row.get r "issue_d" != Val.na) (List.map (fun r => Row.set r "issue_d" (toDatetimeVal (Row.get r "issue_d"))) (List.map (fun r => Row.set r "issue_month" (periodM (Row.get r "issue_d"))) (List.filter (fun r => Row.get r "issue_d" != Val.na) (List.map (fun r => Row.set r "issue_d" (toDatetimeVal (Row.get r "issue_d"))) ((selectUsecols t).rows)))))))))))) = Table.mk (((selectUsecols t).cols ++ ["issue_month"]) ++ ["target"]) (List.map (fun r => Row.set r "term" (termNormalizeVal (Row.get r "term"))) (List.map (fun r => Row.set r "revol_util" (percentNormalizeVal (Row.get r "revol_util"))) (List.map (fun r => Row.set r "int_rate" (percentNormalizeVal (Row.get r "int_rate"))) (List.filter (fun r => Row.get r "target" != Val.na) (List.map (fun r => Row.set r "target" (build_target (Row.get r "loan_status"))) (List.map (fun r => Row.set r "issue_month" (periodM (Row.get r "issue_d"))) (List.filter (fun r => Row.get r "issue_d" != Val.na) (List.map (fun r => Row.set r "issue_d" (toDatetimeVal (Row.get r "issue_d"))) (List.map (fun r => Row.set r "issue_month" (periodM (Row.get r "issue_d"))) (List.filter (fun r => Row.get r "issue_d" != Val.na) (List.map (fun r => Row.set r "issue_d" (toDatetimeVal (Row.get r "issue_d"))) ((selectUsecols t).rows)))))))))))) := by
    simp [termStage, Table.assignIf, Table.assign, hTM]
  have hNCc2 : ∀ c ∈ numeric_cols, (Table.mk (((selectUsecols t).cols ++ ["issue_month"]) ++ ["target"]) (List.map (fun r => Row.set r "term" (termNormalizeVal (Row.get r "term"))) (List.map (fun r => Row.set r "revol_util" (percentNormalizeVal (Row.get r "revol_util"))) (List.map (fun r => Row.set r "int_rate" (percentNormalizeVal (Row.get r "int_rate"))) (List.filter (fun r => Row.get r "target" != Val.na) (List.map (fun r => Row.set r "target" (build_target (Row.get r "loan_status"))) (List.map (fun r => Row.set r "issue_month" (periodM (Row.get r "issue_d"))) (List.filter (fun r => Row.get r "issue_d" != Val.na) (List.map (fun r => Row.set r "issue_d" (toDatetimeVal (Row.get r "issue_d"))) (List.map (fun r => Row.set r "issue_month" (periodM (Row.get r "issue_d"))) (List.filter (fun r => Row.get r "issue_d" != Val.na) (List.map (fun r => Row.set r "issue_d" (toDatetimeVal (Row.get r "issue_d"))) ((selectUsecols t).rows))))))))))))).cols.contains c = true := by
    intro c hc
    have hcU : c ∈ USECOLS := by revert c; decide
    exact List.elem_iff.mpr (List.mem_append_left _ (List.mem_append_left _ (hmem _ hcU)))
  have h6 : numericStage (Table.mk (((selectUsecols t).cols ++ ["issue_month"]) ++ ["target"]) (List.map (fun r => Row.set r "term" (termNormalizeVal (Row.get r "term"))) (List.map (fun r => Row.set r "revol_util" (percentNormalizeVal (Row.get r "revol_util"))) (List.map (fun r => Row.set r "int_rate" (percentNormalizeVal (Row.get r "int_rate"))) (List.filter (fun r => Row.get r "target" != Val.na) (List.map (fun r => Row.set r "target" (build_target (Row.get r "loan_status"))) (List.map (fun r => Row.set r "issue_month" (periodM (Row.get r "issue_d"))) (List.filter (fun r => Row.get r "issue_d" != Val.na) (List.map (fun r => Row.set r "issue_d" (toDatetimeVal (Row.get r "issue_d"))) (List.map (fun r => Row.set r "issue_month" (periodM (Row.get r "issue_d"))) (List.filter (fun r => Row.get r "issue_d" != Val.na) (List.map (fun r => Row.set r "issue_d" (toDatetimeVal (Row.get r "issue_d"))) ((selectUsecols t).rows))))))))))))) = Table.mk (((selectUsecols t).cols ++ ["issue_month"]) ++ ["target"]) (List.map (fun r => numeric_cols.foldl (fun rr c => Row.set rr c (toNumericVal (Row.get rr c))) r) (List.map (fun r => Row.set r "term" (termNormalizeVal (Row.get r "term"))) (List.map (fun r => Row.set r "revol_util" (percentNormalizeVal (Row.get r "revol_util"))) (List.map (fun r => Row.set r "int_rate" (percentNormalizeVal (Row.get r "int_rate"))) (List.filter (fun r => Row.get r "target" != Val.na) (List.map (fun r => Row.set r "target" (build_target (Row.get r "loan_status"))) (List.map (fun r => Row.set r "issue_month" (periodM (Row.get r "issue_d"))) (List.filter (fun r => Row.get r "issue_d" != Val.na) (List.map (fun r => Row.set r "issue_d" (toDatetimeVal (Row.get r "issue_d"))) (List.map (fun r => Row.set r "issue_month" (periodM (Row.get r "issue_d"))) (List.filter (fun r => Row.get r "issue_d" != Val.na) (List.map (fun r => Row.set r "issue_d" (toDatetimeVal (Row.get r "issue_d"))) ((selectUsecols t).rows))))))))))))) := by
    exact numericFold_spec numeric_cols _ hNCc2
  have h7 : dropLeakStage (Table.mk (((selectUsecols t).cols ++ ["issue_month"]) ++ ["target"]) (List.map (fun r => numeric_cols.foldl (fun rr c => Row.set rr c (toNumericVal (Row.get rr c))) r) (List.map (fun r => Row.set r "term" (termNormalizeVal (Row.get r "term"))) (List.map (fun r => Row.set r "revol_util" (percentNormalizeVal (Row.get r "revol_util"))) (List.map (fun r => Row.set r "int_rate" (percentNormalizeVal (Row.get r "int_rate"))) (List.filter (fun r => Row.get r "target" != Val.na) (List.map (fun r => Row.set r "target" (build_target (Row.get r "loan_status"))) (List.map (fun r => Row.set r "issue_month" (periodM (Row.get r "issue_d"))) (List.filter (fun r => Row.get r "issue_d" != Val.na) (List.map (fun r => Row.set r "issue_d" (toDatetimeVal (Row.get r "issue_d"))) (List.map (fun r => Row.set r "issue_month" (periodM (Row.get r "issue_d"))) (List.filter (fun r => Row.get r "issue_d" != Val.na) (List.map (fun r => Row.set r "issue_d" (toDatetimeVal (Row.get r "issue_d"))) ((selectUsecols t).rows)))))))))))))) = Table.mk ((((selectUsecols t).cols ++ ["issue_month"]) ++ ["target"]).filter (fun x => x ≠ "loan_status")) (List.map (fun r => Row.dropKey r "loan_status") (List.map (fun r => numeric_cols.foldl (fun rr c => Row.set rr c (toNumericVal (Row.get rr c))) r) (List.map (fun r => Row.set r "term" (termNormalizeVal (Row.get r "term"))) (List.map (fun r => Row.set r "revol_util" (percentNormalizeVal (Row.get r "revol_util"))) (List.map (fun r => Row.set r "int_rate" (percentNormalizeVal (Row.get r "int_rate"))) (List.filter (fun r => Row.get r "target" != Val.na) (List.map (fun r => Row.set r "target" (build_target (Row.get r "loan_status"))) (List.map (fun r => Row.set r "issue_month" (periodM (Row.get r "issue_d"))) (List.filter (fun r => Row.get r "issue_d" != Val.na) (List.map (fun r => Row.set r "issue_d" (toDatetimeVal (Row.get r "issue_d"))) (List.map (fun r => Row.set r "issue_month" (periodM (Row.get r "issue_d"))) (List.filter (fun r => Row.get r "issue_d" != Val.na) (List.map (fun r => Row.set r "issue_d" (toDatetimeVal (Row.get r "issue_d"))) ((selectUsecols t).rows)))))))))))))) := by
    simp [dropLeakStage, Table.dropCol, hLS]
  unfold load_and_normalize
  rw [if_pos h]
  simp only []
  rw [h1, h2, h3, h4, h5, h6, h7]
  have hIDc3 : "issue_d" ∈ ((((selectUsecols t).cols ++ ["issue_month"]) ++ ["target"]).filter (fun x => x ≠ "loan_status")) :=
    List.mem_filter.mpr ⟨List.mem_append_left _ (List.mem_append_left _ hID), by decide⟩
  rw [if_pos (show (Table.mk ((((selectUsecols t).cols ++ ["issue_month"]) ++ ["target"]).filter (fun x => x ≠ "loan_status")) (List.map (fun r => Row.dropKey r "loan_status") (List.map (fun r => numeric_cols.foldl (fun rr c => Row.set rr c (toNumericVal (Row.get rr c))) r) (List.map (fun r => Row.set r "term" (termNormalizeVal (Row.get r "term"))) (List.map (fun r => Row.set r "revol_util" (percentNormalizeVal (Row.get r "revol_util"))) (List.map (fun r => Row.set r "int_rate" (percentNormalizeVal (Row.get r "int_rate"))) (List.filter (fun r => Row.get r "target" != Val.na) (List.map (fun r => Row.set r "target" (build_target (Row.get r "loan_status"))) (List.map (fun r => Row.set r "issue_month" (periodM (Row.get r "issue_d"))) (List.filter (fun r => Row.get r "issue_d" != Val.na) (List.map (fun r => Row.set r "issue_d" (toDatetimeVal (Row.get r "issue_d"))) (List.map (fun r => Row.set r "issue_month" (periodM (Row.get r "issue_d"))) (List.filter (fun r => Row.get r "issue_d" != Val.na) (List.map (fun r => Row.set r "issue_d" (toDatetimeVal (Row.get r "issue_d"))) ((selectUsecols t).rows))))))))))))))).cols.contains "issue_d" = true from
    List.elem_iff.mpr hIDc3)]
  have h8 : (Table.mk ((((selectUsecols t).cols ++ ["issue_month"]) ++ ["target"]).filter (fun x => x ≠ "loan_status")) (List.map (fun r => Row.dropKey r "loan_status") (List.map (fun r => numeric_cols.foldl (fun rr c => Row.set rr c (toNumericVal (Row.get rr c))) r) (List.map (fun r => Row.set r "term" (termNormalizeVal (Row.get r "term"))) (List.map (fun r => Row.set r "revol_util" (percentNormalizeVal (Row.get r "revol_util"))) (List.map (fun r => Row.set r "int_rate" (percentNormalizeVal (Row.get r "int_rate"))) (List.filter (fun r => Row.get r "target" != Val.na) (List.map (fun r => Row.set r "target" (build_target (Row.get r "loan_status"))) (List.map (fun r => Row.set r "issue_month" (periodM (Row.get r "issue_d"))) (List.filter (fun r => Row.get r "issue_d" != Val.na) (List.map (fun r => Row.set r "issue_d" (toDatetimeVal (Row.get r "issue_d"))) (List.map (fun r => Row.set r "issue_month" (periodM (Row.get r "issue_d"))) (List.filter (fun r => Row.get r "issue_d" != Val.na) (List.map (fun r => Row.set r "issue_d" (toDatetimeVal (Row.get r "issue_d"))) ((selectUsecols t).rows))))))))))))))).assign "issue_d"
      (fun r => toDatetimeVal (Row.get r "issue_d")) = Table.mk ((((selectUsecols t).cols ++ ["issue_month"]) ++ ["target"]).filter (fun x => x ≠ "loan_status")) (List.map (fun r => Row.set r "issue_d" (toDatetimeVal (Row.get r "issue_d"))) (List.map (fun r => Row.dropKey r "loan_status") (List.map (fun r => numeric_cols.foldl (fun rr c => Row.set rr c (toNumericVal (Row.get rr c))) r) (List.map (fun r => Row.set r "term" (termNormalizeVal (Row.get r "term"))) (List.map (fun r => Row.set r "revol_util" (percentNormalizeVal (Row.get r "revol_util"))) (List.map (fun r => Row.set r "int_rate" (percentNormalizeVal (Row.get r "int_rate"))) (List.filter (fun r => Row.get r "target" != Val.na) (List.map (fun r => Row.set r "target" (build_target (Row.get r "loan_status"))) (List.map (fun r => Row.set r "issue_month" (periodM (Row.get r "issue_d"))) (List.filter (fun r => Row.get r "issue_d" != Val.na) (List.map (fun r => Row.set r "issue_d" (toDatetimeVal (Row.get r "issue_d"))) (List.map (fun r => Row.set r "issue_month" (periodM (Row.get r "issue_d"))) (List.filter (fun r => Row.get r "issue_d" != Val.na) (List.map (fun r => Row.set r "issue_d" (toDatetimeVal (Row.get r "issue_d"))) ((selectUsecols t).rows))))))))))))))) := by
    simp [Table.assign, hIDc3, hID]
  rw [h8]
  simp only []
  rw [pipelineRows8 ((selectUsecols t).rows)]
  have hfull : List.filter (fun r => Row.get r "issue_d" != Val.na) (List.map normRowCore (List.filter keepRow ((selectUsecols t).rows))) = List.map normRowCore (List.filter keepRow ((selectUsecols t).rows)) := by
    refine List.filter_eq_self.mpr ?_
    intro r hr
    rcases List.mem_map.mp hr with ⟨r0, hr0, he⟩
    have hk : keepRow r0 = true := (List.mem_filter.mp hr0).2
    have hA : (toDatetimeVal (Row.get r0 "issue_d") != Val.na) = true := by
      unfold keepRow at hk
      simp only [Bool.and_eq_true] at hk
      exact hk.1
    rw [← he, get_normRowCore_issue]
    exact hA
  rw [hfull]
  have hcond : ¬((List.map normRowCore (List.filter keepRow ((selectUsecols t).rows))).length ≠ 0 ∧
      (((List.map normRowCore (List.filter keepRow ((selectUsecols t).rows))).length : ℚ) / ((List.map normRowCore (List.filter keepRow ((selectUsecols t).rows))).length : ℚ) < 95 / 100)) := by
    rintro ⟨h0, hlt⟩
    rw [div_self (Nat.cast_ne_zero.mpr h0)] at hlt
    norm_num at hlt
  rw [if_neg hcond]
  have hIMc3 : "issue_month" ∈ ((((selectUsecols t).cols ++ ["issue_month"]) ++ ["target"]).filter (fun x => x ≠ "loan_status")) :=
    List.mem_filter.mpr
      ⟨List.mem_append_left _ (List.mem_append_right _ (by decide)), by decide⟩
  have h9 : (Table.mk ((((selectUsecols t).cols ++ ["issue_month"]) ++ ["target"]).filter (fun x => x ≠ "loan_status")) (List.map normRowCore (List.filter keepRow ((selectUsecols t).rows)))).assign "issue_month"
      (fun r => periodM (Row.get r "issue_d")) =
      Table.mk ((((selectUsecols t).cols ++ ["issue_month"]) ++ ["target"]).filter (fun x => x ≠ "loan_status")) (List.map (fun r => Row.set r "issue_month" (periodM (Row.get r "issue_d"))) (List.map normRowCore (List.filter keepRow ((selectUsecols t).rows)))) := by
    simp [Table.assign, hIMc3]
  rw [h9]
  have hcolsEq : ((((selectUsecols t).cols ++ ["issue_month"]) ++ ["target"]).filter (fun x => x ≠ "loan_status")) = normCols t := by
    simp [normCols, List.filter_append]
  have hrowsEq : List.map (fun r => Row.set r "issue_month" (periodM (Row.get r "issue_d"))) (List.map normRowCore (List.filter keepRow ((selectUsecols t).rows))) =
      List.map normRow (List.filter keepRow ((selectUsecols t).rows)) := by
    rw [List.map_map]
    refine List.map_congr_left (fun r _ => ?_)
    simp only [Function.comp, normRow, stepMonth]
  rw [hcolsEq, hrowsEq]
  rfl

/-- Inversion: a successful run implies the usecols check passed and the
result is the normalized table. -/
theorem load_and_normalize_ok_inv (t : Table) (out : Table)
    (hok : load_and_normalize t = Except.ok out) :
    USECOLS.all (fun c => t.cols.contains c) = true ∧ out = normTable t := by
  by_cases hA : USECOLS.all (fun c => t.cols.contains c) = true
  · refine ⟨hA, ?_⟩
    rw [load_and_normalize_spec t hA] at hok
    exact (Except.ok.inj hok).symm
  · exfalso
    unfold load_and_normalize at hok
    rw [if_neg hA] at hok
    exact Except.noConfusion hok

/-- A read on a key the filter keeps is unchanged by the filter. -/
theorem Row.get_filter_keyPred (q : String → Bool) (r : Row) (c : String)
    (hq : q c = true) :
    Row.get (r.filter (fun p => q p.1)) c = Row.get r c := by
  induction r with
  | nil => rfl
  | cons p r ih =>
      by_cases hp : p.1 = c
      · have : q p.1 = true := by rw [hp]; exact hq
        simp [List.filter_cons, this, hq, Row.get, hp]
      · cases hqp : q p.1 with
        | false => simp [List.filter_cons, hqp, Row.get, hp, ih]
        | true => simp [List.filter_cons, hqp, Row.get, hp, ih]

/-- Keys of an overwritten row are existing keys (or the written key). -/
theorem Row.fst_mem_setAll (r : Row) (c : String) (v : Val) :
    ∀ p ∈ Row.setAll r c v, p.1 = c ∨ p.1 ∈ r.map Prod.fst := by
  induction r with
  | nil => intro p hp; simp [Row.setAll] at hp
  | cons q r ih =>
      intro p hp
      simp only [Row.setAll, List.mem_cons] at hp
      rcases hp with hp | hp
      · by_cases hq : q.1 = c
        · subst hp; simp [hq]
        · subst hp; simp [hq]
      · rcases ih p hp with h2 | h2
        · exact Or.inl h2
        · exact Or.inr (by simp [h2])

/-- Keys of a written row: the written key or an existing key. -/
theorem Row.fst_mem_set (r : Row) (c : String) (v : Val) :
    ∀ p ∈ Row.set r c v, p.1 = c ∨ p.1 ∈ r.map Prod.fst := by
  unfold Row.set
  by_cases h : Row.hasCol r c
  · simp only [h, if_true]
    exact Row.fst_mem_setAll r c v
  · simp only [Bool.not_eq_true] at h
    simp only [h, Bool.false_eq_true, if_false]
    intro p hp
    rcases List.mem_append.mp hp with hp | hp
    · exact Or.inr (List.mem_map_of_mem Prod.fst hp)
    · simp only [List.mem_singleton] at hp
      subst hp
      exact Or.inl rfl

/-- No key of a dropped-key row is that key. -/
theorem Row.fst_mem_dropKey (r : Row) (c : String) :
    ∀ d ∈ (Row.dropKey r c).map Prod.fst, d ≠ c := by
  intro d hd
  rcases List.mem_map.mp hd with ⟨p, hp, rfl⟩
  exact Row.keys_dropKey r c p hp

/-- Every column key of a transformed row differs from `loan_status`. -/
theorem normRow_no_leak_key (r : Row) :
    ∀ p ∈ normRow r, p.1 ≠ "loan_status" := by
  intro p hp he
  unfold normRow stepMonth at hp
  rcases Row.fst_mem_set _ _ _ p hp with h1 | h1
  · rw [he] at h1; exact absurd h1 (by decide)
  · unfold normRowCore stepIssue at h1
    rcases List.mem_map.mp h1 with ⟨p2, hp2, hfst⟩
    rcases Row.fst_mem_set _ _ _ p2 hp2 with h2 | h2
    · rw [he] at hfst; rw [h2] at hfst; exact absurd hfst.symm (by decide)
    · unfold stepDrop at h2
      exact Row.fst_mem_dropKey _ _ _ h2 (hfst.trans he)

/-! ### Column-alignment lemmas for the scorer -/

theorem keyIn_iff_mem (X : List (String × ℚ)) (c : String) :
    keyIn X c = true ↔ c ∈ X.map Prod.fst := by
  simp [keyIn, List.any_eq_true, List.mem_map]

theorem lookupQ_of_not_key (X : List (String × ℚ)) (c : String)
    (h : keyIn X c = false) : lookupQ X c = 0 := by
  induction X with
  | nil => rfl
  | cons p X ih =>
      have hp : ¬ p.1 = c := by
        intro he; simp [keyIn, List.any_cons, he] at h
      have h2 : keyIn X c = false := by
        simpa [keyIn, List.any_cons, hp] using h
      simp [lookupQ, hp, ih h2]

theorem lookupQ_append_default (X : List (String × ℚ)) (c c2 : String) :
    lookupQ (X ++ [(c, 0)]) c2 = lookupQ X c2 := by
  induction X with
  | nil =>
      by_cases h : c = c2 <;> simp [lookupQ, h]
  | cons p X ih =>
      by_cases h : p.1 = c2 <;> simp [lookupQ, h, ih]

theorem keyIn_append_default (X : List (String × ℚ)) (c d : String) :
    keyIn (X ++ [(c, 0)]) d = (keyIn X d || (c == d)) := by
  simp [keyIn, List.any_append]

theorem fillMissing_cons (X : List (String × ℚ)) (c : String) (names : List String) :
    fillMissing X (c :: names) =
      fillMissing (if keyIn X c then X else X ++ [(c, 0)]) names := rfl

theorem lookupQ_fillMissing (names : List String) :
    ∀ (X : List (String × ℚ)) (c2 : String),
      lookupQ (fillMissing X names) c2 = lookupQ X c2 := by
  induction names with
  | nil => intro X c2; rfl
  | cons c names ih =>
      intro X c2
      rw [fillMissing_cons]
      by_cases h : keyIn X c = true
      · simp [h, ih]
      · simp only [Bool.not_eq_true] at h
        simp [h, ih, lookupQ_append_default]

theorem keyIn_fillMissing_of (names : List String) :
    ∀ (X : List (String × ℚ)) (d : String), keyIn X d = true →
      keyIn (fillMissing X names) d = true := by
  induction names with
  | nil => intro X d h; exact h
  | cons c names ih =>
      intro X d h
      rw [fillMissing_cons]
      by_cases hc : keyIn X c = true
      · simp only [hc, if_true]; exact ih X d h
      · simp only [Bool.not_eq_true] at hc
        simp only [hc, Bool.false_eq_true, if_false]
        exact ih _ d (by simp [keyIn_append_default, h])

theorem keyIn_fillMissing_mem (names : List String) :
    ∀ (X : List (String × ℚ)) (d : String), d ∈ names →
      keyIn (fillMissing X names) d = true := by
  induction names with
  | nil => intro X d h; simp at h
  | cons c names ih =>
      intro X d h
      rw [fillMissing_cons]
      rcases List.mem_cons.mp h with he | hm
      · subst he
        by_cases hc : keyIn X d = true
        · simp only [hc, if_true]
          exact keyIn_fillMissing_of names X d hc
        · simp only [Bool.not_eq_true] at hc
          simp only [hc, Bool.false_eq_true, if_false]
          exact keyIn_fillMissing_of names _ d (by simp [keyIn_append_default])
      · by_cases hc : keyIn X c = true
        · simp only [hc, if_true]; exact ih X d hm
        · simp only [Bool.not_eq_true] at hc
          simp only [hc, Bool.false_eq_true, if_false]
          exact ih _ d hm

theorem keysNodup_fillMissing (names : List String) :
    ∀ X : List (String × ℚ), (X.map Prod.fst).Nodup →
      ((fillMissing X names).map Prod.fst).Nodup := by
  induction names with
  | nil => intro X h; exact h
  | cons c names ih =>
      intro X h
      rw [fillMissing_cons]
      by_cases hc : keyIn X c = true
      · simp only [hc, if_true]; exact ih X h
      · simp only [Bool.not_eq_true] at hc
        simp only [hc, Bool.false_eq_true, if_false]
        refine ih _ ?_
        rw [List.map_append]
        refine List.Nodup.append h (by simp) ?_
        intro d hd hd2
        simp only [List.map_cons, List.map_nil, List.mem_singleton] at hd2
        subst hd2
        exact absurd ((keyIn_iff_mem X d).mpr hd) (by simp [hc])

theorem filter_key_eq_of_nodup (X : List (String × ℚ)) (c : String)
    (hX : (X.map Prod.fst).Nodup) (hc : keyIn X c = true) :
    X.filter (fun p => p.1 == c) = [(c, lookupQ X c)] := by
  induction X with
  | nil => simp [keyIn] at hc
  | cons p X ih =>
      by_cases hp : p.1 = c
      · have hrest : X.filter (fun p => p.1 == c) = [] := by
          rw [List.filter_eq_nil_iff]
          intro q hq
          simp only [beq_iff_eq]
          intro he
          have : q.1 ∈ X.map Prod.fst := List.mem_map_of_mem Prod.fst hq
          rw [he, ← hp] at this
          exact (List.nodup_cons.mp (by simpa using hX)).1 this
        have h1 : (p :: X).filter (fun q => q.1 == c) = p :: X.filter (fun q => q.1 == c) := by
          simp [List.filter_cons, hp]
        rw [h1, hrest, show lookupQ (p :: X) c = p.2 from by simp [lookupQ, hp]]
        exact congrArg (fun z => [z]) (by rw [← hp])
      · have hc2 : keyIn X c = true := by
          simpa [keyIn, List.any_cons, hp] using hc
        have hX2 : (X.map Prod.fst).Nodup := (List.nodup_cons.mp (by simpa using hX)).2
        simp [List.filter_cons, hp, lookupQ, ih hX2 hc2]

theorem selectByNames_eq_map (names : List String) (X : List (String × ℚ))
    (hX : (X.map Prod.fst).Nodup) (h : ∀ c ∈ names, keyIn X c = true) :
    selectByNames X names = names.map (fun c => (c, lookupQ X c)) := by
  induction names with
  | nil => rfl
  | cons c names ih =>
      have hc : keyIn X c = true := h c (List.mem_cons_self c names)
      have hrest : ∀ d ∈ names, keyIn X d = true :=
        fun d hd => h d (List.mem_cons_of_mem c hd)
      simp only [selectByNames, List.flatMap_cons, List.map_cons]
      rw [filter_key_eq_of_nodup X c hX hc]
      have := ih hrest
      simp only [selectByNames] at this
      simp [this]

/-- Characterization of the column-alignment step of `score` (lines 48-57):
when the one-hot-encoded frame has duplicate-free column labels, the vector
passed to the model is exactly the persisted name list paired with the
encoded value of each name (0 when the encoded frame lacks it). -/
theorem scoreVector_eq_map (features : List (String × PyVal)) (names : List String)
    (hX : ((getDummiesRow features).map Prod.fst).Nodup) :
    scoreVector features names =
      names.map (fun c => (c, lookupQ (getDummiesRow features) c)) := by
  unfold scoreVector alignFeatures
  rw [selectByNames_eq_map names _ (keysNodup_fillMissing names _ hX)
    (fun c hc => keyIn_fillMissing_mem names _ c hc)]
  exact List.map_congr_left (fun c _ => by rw [lookupQ_fillMissing])

/-! ### Claims -/

/-- C3: the scoring decision is a fixed three-way threshold on the predicted
probability with thresholds 0.03 and 0.08: below 0.03 yields "approve",
between 0.03 and 0.08 yields "review", at or above 0.08 yields "reject"; in
particular the boundary 0.03 yields "review" and the boundary 0.08 yields
"reject". -/
theorem c3_decision_thresholds (p : ℚ) :
    (p < 3 / 100 → decisionPolicy p = "approve") ∧
    (3 / 100 ≤ p → p < 8 / 100 → decisionPolicy p = "review") ∧
    (8 / 100 ≤ p → decisionPolicy p = "reject") ∧
    decisionPolicy (3 / 100) = "review" ∧
    decisionPolicy (8 / 100) = "reject" := by
  refine ⟨fun h1 => ?_, fun h1 h2 => ?_, fun h1 => ?_, ?_, ?_⟩
  · simp [decisionPolicy, h1]
  · have h3 : ¬ p < 3 / 100 := not_lt.mpr h1
    simp [decisionPolicy, h3, h2]
  · have h2 : ¬ p < 3 / 100 := not_lt.mpr (le_trans (by norm_num) h1)
    have h3 : ¬ p < 8 / 100 := not_lt.mpr h1
    simp [decisionPolicy, h2, h3]
  · norm_num [decisionPolicy]
  · norm_num [decisionPolicy]

/-- Witness for C3 at the probabilities 0.01, 0.05 and 0.09. -/
theorem c3_witness :
    ((1 : ℚ) / 100 < 3 / 100 ∧ decisionPolicy (1 / 100) = "approve") ∧
    ((3 : ℚ) / 100 ≤ 5 / 100 ∧ (5 : ℚ) / 100 < 8 / 100 ∧
      decisionPolicy (5 / 100) = "review") ∧
    ((8 : ℚ) / 100 ≤ 9 / 100 ∧ decisionPolicy (9 / 100) = "reject") :=
  ⟨⟨by norm_num, (c3_decision_thresholds (1 / 100)).1 (by norm_num)⟩,
    ⟨by norm_num, by norm_num,
      (c3_decision_thresholds (5 / 100)).2.1 (by norm_num) (by norm_num)⟩,
    ⟨by norm_num, (c3_decision_thresholds (9 / 100)).2.2.1 (by norm_num)⟩⟩

/-- C10: the decision policy is total — every probability yields a decision
among approve, review, reject — and monotone: a smaller probability never
yields a stricter decision, under the order approve < review < reject. -/
theorem c10_policy_total_monotone (p q : ℚ) (hpq : p ≤ q) :
    (decisionPolicy p = "approve" ∨ decisionPolicy p = "review" ∨
      decisionPolicy p = "reject") ∧
    decisionRank (decisionPolicy p) ≤ decisionRank (decisionPolicy q) := by
  constructor
  · unfold decisionPolicy
    split_ifs <;> simp
  · by_cases h1 : p < 3 / 100 <;> by_cases h2 : q < 3 / 100 <;>
      by_cases h3 : p < 8 / 100 <;> by_cases h4 : q < 8 / 100 <;>
        simp [decisionPolicy, decisionRank, h1, h2, h3, h4] <;> linarith

/-- Witness for C10 at the probabilities 0 and 1. -/
theorem c10_witness :
    (0 : ℚ) ≤ 1 ∧
    ((decisionPolicy 0 = "approve" ∨ decisionPolicy 0 = "review" ∨
        decisionPolicy 0 = "reject") ∧
      decisionRank (decisionPolicy 0) ≤ decisionRank (decisionPolicy 1)) :=
  ⟨by norm_num, c10_policy_total_monotone 0 1 (by norm_num)⟩

/-- C8: when no model bundle exists at the model path, the scoring operation
fails with HTTP status 500 and a message telling the caller to run the
training pipeline, returning no probability or decision (the error value
carries no `ScoreResponse`); the health endpoint is a constant liveness
response, unaffected by the store. -/
theorem c8_missing_model (features : List (String × PyVal)) :
    score none features = Except.error
      (500, "Model not found at artifacts/models/lgbm_model.joblib. Run: python scripts/train_all.py") ∧
    health = [("status", "ok")] :=
  ⟨rfl, rfl⟩

/-- C1 counterexample: with the duplicate-free persisted feature list
["grade_A"] and the feature mapping {grade: "A", grade_A: 7} (whose keys are
distinct), one-hot encoding creates a second column labelled "grade_A", and
the vector passed to the model has that label twice — its columns are not
the persisted list. -/
theorem c1_counterexample :
    (["grade_A"] : List String).Nodup ∧
    (([("grade", PyVal.str "A"), ("grade_A", PyVal.num 7)].map Prod.fst).Nodup) ∧
    (scoreVector [("grade", PyVal.str "A"), ("grade_A", PyVal.num 7)]
        ["grade_A"]).map Prod.fst ≠ ["grade_A"] :=
  ⟨by decide, by decide, by decide⟩

/-- C1 (amended): if additionally the one-hot-encoded input frame has
duplicate-free column labels, the vector passed to the model has exactly the
persisted feature list as its columns in that order, every persisted feature
absent from the encoded input is present with value 0, and every encoded
column not in the persisted list is absent. -/
theorem c1_reindex_amended (features : List (String × PyVal)) (names : List String)
    (hn : names.Nodup) (hX : ((getDummiesRow features).map Prod.fst).Nodup) :
    (scoreVector features names).map Prod.fst = names ∧
    (∀ c ∈ names, keyIn (getDummiesRow features) c = false →
      (c, (0 : ℚ)) ∈ scoreVector features names) ∧
    (∀ p ∈ scoreVector features names, p.1 ∈ names) := by
  have hchar := scoreVector_eq_map features names hX
  refine ⟨?_, ?_, ?_⟩
  · have hcomp : (Prod.fst ∘ fun c => (c, lookupQ (getDummiesRow features) c)) = id := rfl
    rw [hchar, List.map_map, hcomp, List.map_id]
  · intro c hc h0
    rw [hchar]
    exact List.mem_map.mpr ⟨c, hc, by rw [lookupQ_of_not_key _ _ h0]⟩
  · intro p hp
    rw [hchar] at hp
    rcases List.mem_map.mp hp with ⟨c, hc, rfl⟩
    exact hc

/-- Witness for the amended C1 at the mapping
{loan_amnt: 5, grade: "A"} and the persisted list
["loan_amnt", "grade_A", "grade_nan"]. -/
theorem c1_witness :
    (["loan_amnt", "grade_A", "grade_nan"] : List String).Nodup ∧
    ((getDummiesRow [("loan_amnt", PyVal.num 5), ("grade", PyVal.str "A")]).map
        Prod.fst).Nodup ∧
    ((scoreVector [("loan_amnt", PyVal.num 5), ("grade", PyVal.str "A")]
          ["loan_amnt", "grade_A", "grade_nan"]).map Prod.fst =
        ["loan_amnt", "grade_A", "grade_nan"] ∧
      (∀ c ∈ ["loan_amnt", "grade_A", "grade_nan"],
        keyIn (getDummiesRow [("loan_amnt", PyVal.num 5), ("grade", PyVal.str "A")]) c = false →
        (c, (0 : ℚ)) ∈ scoreVector [("loan_amnt", PyVal.num 5), ("grade", PyVal.str "A")]
          ["loan_amnt", "grade_A", "grade_nan"]) ∧
      (∀ p ∈ scoreVector [("loan_amnt", PyVal.num 5), ("grade", PyVal.str "A")]
          ["loan_amnt", "grade_A", "grade_nan"], p.1 ∈
            (["loan_amnt", "grade_A", "grade_nan"] : List String))) :=
  ⟨by decide, by decide, c1_reindex_amended _ _ (by decide) (by decide)⟩

/-- C4: the trainer sanitizes one-hot column names
(`emp_length_10+ years` becomes `emp_length_10_years`) before persisting
them, but the scorer encodes without sanitizing; for the categorical value
"10+ years" — seen at training — the scorer's column name differs from the
persisted one, so the persisted indicator is reindexed to 0 instead of the
encoded 1.  This evaluates the embedded code at the failing input. -/
theorem c4_serving_encoding_skew :
    sanitize_feature_names ["emp_length_10+ years", "emp_length_nan"] =
      ["emp_length_10_years", "emp_length_nan"] ∧
    trainerNamePipeline ["emp_length_10+ years", "emp_length_nan"] =
      ["emp_length_10_years", "emp_length_nan"] ∧
    (getDummiesRow [("emp_length", PyVal.str "10+ years")]).map Prod.fst =
      ["emp_length_10+ years", "emp_length_nan"] ∧
    ("emp_length_10+ years" : String) ≠ "emp_length_10_years" ∧
    scoreVector [("emp_length", PyVal.str "10+ years")]
        ["emp_length_10_years", "emp_length_nan"] =
      [("emp_length_10_years", 0), ("emp_length_nan", 0)] :=
  ⟨by decide, by decide, by decide, by decide, by decide⟩

/-- Case analysis of `build_target` on one status cell. -/
theorem build_target_cases (v : Val) :
    (good_statuses.contains (astypeStr v) = true ∧ build_target v = Val.num 0) ∨
    (good_statuses.contains (astypeStr v) = false ∧
      bad_statuses.contains (astypeStr v) = true ∧ build_target v = Val.num 1) ∨
    (good_statuses.contains (astypeStr v) = false ∧
      bad_statuses.contains (astypeStr v) = false ∧ build_target v = Val.na) := by
  by_cases hg : good_statuses.contains (astypeStr v) = true
  · have hgm : astypeStr v ∈ good_statuses := List.elem_iff.mp hg
    exact Or.inl ⟨hg, by simp [build_target, hgm]⟩
  · have hg2 := Bool.eq_false_iff.mpr hg
    have hgm : astypeStr v ∉ good_statuses := fun hx => hg (List.elem_iff.mpr hx)
    by_cases hb : bad_statuses.contains (astypeStr v) = true
    · have hbm : astypeStr v ∈ bad_statuses := List.elem_iff.mp hb
      exact Or.inr (Or.inl ⟨hg2, hb, by simp [build_target, hgm, hbm]⟩)
    · have hb2 := Bool.eq_false_iff.mpr hb
      have hbm : astypeStr v ∉ bad_statuses := fun hx => hb (List.elem_iff.mpr hx)
      exact Or.inr (Or.inr ⟨hg2, hb2, by simp [build_target, hgm, hbm]⟩)

/-- C2: a row appears in the table returned by `load_and_normalize` only if
its status string is in the bad set (then its label is 1) or in the good set
(then its label is 0); rows with any other status are absent; consequently
every row of the normalized table has target 0 or 1 — never missing, never
another value. -/
theorem c2_normalized_labels (t out : Table)
    (hok : load_and_normalize t = Except.ok out) :
    (∀ r ∈ out.rows, ∃ r0 ∈ t.rows,
        r = normRow (r0.filter (fun p => USECOLS.contains p.1)) ∧
        ((good_statuses.contains (astypeStr (Row.get r0 "loan_status")) = true ∧
            Row.get r "target" = Val.num 0) ∨
          (good_statuses.contains (astypeStr (Row.get r0 "loan_status")) = false ∧
            bad_statuses.contains (astypeStr (Row.get r0 "loan_status")) = true ∧
            Row.get r "target" = Val.num 1))) ∧
    (∀ r ∈ out.rows, Row.get r "target" = Val.num 0 ∨ Row.get r "target" = Val.num 1) := by
  obtain ⟨hA, ho⟩ := load_and_normalize_ok_inv t out hok
  subst ho
  have main : ∀ r ∈ (normTable t).rows, ∃ r0 ∈ t.rows,
      r = normRow (r0.filter (fun p => USECOLS.contains p.1)) ∧
      ((good_statuses.contains (astypeStr (Row.get r0 "loan_status")) = true ∧
          Row.get r "target" = Val.num 0) ∨
        (good_statuses.contains (astypeStr (Row.get r0 "loan_status")) = false ∧
          bad_statuses.contains (astypeStr (Row.get r0 "loan_status")) = true ∧
          Row.get r "target" = Val.num 1)) := by
    intro r hr
    have hr2 : r ∈ ((t.rows.map
        (fun r0 => r0.filter (fun p => USECOLS.contains p.1))).filter keepRow).map normRow := hr
    rcases List.mem_map.mp hr2 with ⟨r1, hr1, he⟩
    have hk : keepRow r1 = true := (List.mem_filter.mp hr1).2
    rcases List.mem_map.mp (List.mem_filter.mp hr1).1 with ⟨r0, hr0, he0⟩
    subst he0
    refine ⟨r0, hr0, he.symm, ?_⟩
    have hls : Row.get (r0.filter (fun p => USECOLS.contains p.1)) "loan_status" =
        Row.get r0 "loan_status" :=
      Row.get_filter_keyPred _ _ _ (by decide)
    have htv := get_normRow_target (r0.filter (fun p => USECOLS.contains p.1))
    rw [hls] at htv
    rw [he] at htv
    have hbt : build_target (Row.get r0 "loan_status") ≠ Val.na := by
      have hk1 : ((toDatetimeVal (Row.get (r0.filter (fun p => USECOLS.contains p.1)) "issue_d") != Val.na) &&
          (build_target (Row.get (r0.filter (fun p => USECOLS.contains p.1)) "loan_status") != Val.na)) = true := by
        unfold keepRow at hk; exact hk
      simp only [Bool.and_eq_true] at hk1
      have hk2 := hk1.2
      rw [hls] at hk2
      intro hcon
      rw [hcon] at hk2
      simp at hk2
    rcases build_target_cases (Row.get r0 "loan_status") with ⟨hg, hv⟩ | ⟨hg, hb, hv⟩ | ⟨_, _, hv⟩
    · exact Or.inl ⟨hg, by rw [htv, hv]⟩
    · exact Or.inr ⟨hg, hb, by rw [htv, hv]⟩
    · exact absurd hv hbt
  refine ⟨main, fun r hr => ?_⟩
  rcases main r hr with ⟨r0, _, _, hcase⟩
  rcases hcase with ⟨_, h0⟩ | ⟨_, _, h1⟩
  · exact Or.inl h0
  · exact Or.inr h1

/-- Witness for C2 at a concrete raw table with good, bad, in-progress and
date-invalid rows. -/
theorem c2_witness :
    load_and_normalize exampleRaw = Except.ok (normTable exampleRaw) ∧
    (∀ r ∈ (normTable exampleRaw).rows,
      Row.get r "target" = Val.num 0 ∨ Row.get r "target" = Val.num 1) := by
  have hok := load_and_normalize_spec exampleRaw (by decide)
  exact ⟨hok, (c2_normalized_labels exampleRaw (normTable exampleRaw) hok).2⟩

/-- C5: the parse-rate abort (lines 205-207) is dead code, contrary to the
claim: rows with unparseable issue dates are dropped inside the chunk loop
(lines 148-149), so `load_and_normalize` either rejects the column set or
returns a normalized table — it never raises the parse-rate error.  On a
table whose issue dates are 100% unparseable it silently returns an empty
table instead of aborting. -/
theorem c5_parse_rate_check_unreachable :
    (∀ t : Table, load_and_normalize t = Except.error usecolsErrMsg ∨
      load_and_normalize t = Except.ok (normTable t)) ∧
    load_and_normalize badDatesRaw = Except.ok (normTable badDatesRaw) ∧
    (normTable badDatesRaw).rows = [] ∧
    parseRateErrMsg = "issue_d parse_rate too low. Check raw format." := by
  refine ⟨?_, load_and_normalize_spec badDatesRaw (by decide), by decide, rfl⟩
  intro t
  by_cases hA : USECOLS.all (fun c => t.cols.contains c) = true
  · exact Or.inr (load_and_normalize_spec t hA)
  · left
    unfold load_and_normalize
    rw [if_neg hA]

/-- C6: the normalized table never contains the `loan_status` column — not
among its column names and not as a key of any row. -/
theorem c6_no_leakage (t out : Table)
    (hok : load_and_normalize t = Except.ok out) :
    "loan_status" ∉ out.cols ∧ ∀ r ∈ out.rows, ∀ p ∈ r, p.1 ≠ "loan_status" := by
  obtain ⟨hA, ho⟩ := load_and_normalize_ok_inv t out hok
  subst ho
  constructor
  · intro hx
    have hx2 : ("loan_status" : String) ∈
        ((selectUsecols t).cols.filter (fun c => c ≠ "loan_status")) ++
          ["issue_month", "target"] := hx
    rcases List.mem_append.mp hx2 with hx3 | hx3
    · have := (List.mem_filter.mp hx3).2
      simp at this
    · simp at hx3
  · intro r hr
    have hr2 : r ∈ ((selectUsecols t).rows.filter keepRow).map normRow := hr
    rcases List.mem_map.mp hr2 with ⟨r1, _, he⟩
    subst he
    exact normRow_no_leak_key r1

/-- Witness for C6 at a concrete raw table. -/
theorem c6_witness :
    "loan_status" ∉ (normTable exampleRaw).cols ∧
    ∀ r ∈ (normTable exampleRaw).rows, ∀ p ∈ r, p.1 ≠ "loan_status" :=
  c6_no_leakage exampleRaw (normTable exampleRaw)
    (load_and_normalize_spec exampleRaw (by decide))

/-- C7: in the normalized table the percent fields `int_rate` and
`revol_util` carry the percent-normalized value of the raw cell; the
normalization maps the string "13.56%" to the number 13.56, maps "nan" to
missing, and maps any string that is not numeric after stripping "%" to
missing. -/
theorem c7_percent_fields (t out : Table)
    (hok : load_and_normalize t = Except.ok out) :
    (∀ r ∈ out.rows, ∃ r0 ∈ t.rows,
        r = normRow (r0.filter (fun p => USECOLS.contains p.1)) ∧
        Row.get r "int_rate" = percentNormalizeVal (Row.get r0 "int_rate") ∧
        Row.get r "revol_util" = percentNormalizeVal (Row.get r0 "revol_util")) ∧
    percentNormalizeVal (Val.str "13.56%") = Val.num (1356 / 100) ∧
    percentNormalizeVal (Val.str "nan") = Val.na ∧
    (∀ s : String, stripPercents s ≠ "nan" → toNumeric (stripPercents s) = none →
      percentNormalizeVal (Val.str s) = Val.na) := by
  obtain ⟨hA, ho⟩ := load_and_normalize_ok_inv t out hok
  subst ho
  refine ⟨?_, ?_, by decide, ?_⟩
  · intro r hr
    have hr2 : r ∈ ((t.rows.map
        (fun r0 => r0.filter (fun p => USECOLS.contains p.1))).filter keepRow).map normRow := hr
    rcases List.mem_map.mp hr2 with ⟨r1, hr1, he⟩
    rcases List.mem_map.mp (List.mem_filter.mp hr1).1 with ⟨r0, hr0, he0⟩
    subst he0
    refine ⟨r0, hr0, he.symm, ?_, ?_⟩
    · rw [← he, get_normRow_int_rate, Row.get_filter_keyPred _ _ _ (by decide)]
    · rw [← he, get_normRow_revol_util, Row.get_filter_keyPred _ _ _ (by decide)]
  · have hv : percentNormalizeVal (Val.str "13.56%") = Val.num (mkRat 1356 100) := by decide
    rw [hv]
    congr 1
    rw [Rat.mkRat_eq_div]
    norm_num
  · intro s h1 h2
    simp [percentNormalizeVal, h1, h2]

/-- Witness for C7 at a concrete raw table and the concrete strings of the
claim. -/
theorem c7_witness :
    percentNormalizeVal (Val.str "13.56%") = Val.num (1356 / 100) ∧
    percentNormalizeVal (Val.str "nan") = Val.na ∧
    (stripPercents "abc%" ≠ "nan" ∧ toNumeric (stripPercents "abc%") = none ∧
      percentNormalizeVal (Val.str "abc%") = Val.na) := by
  have hok := load_and_normalize_spec exampleRaw (by decide)
  have hc := c7_percent_fields exampleRaw (normTable exampleRaw) hok
  exact ⟨hc.2.1, hc.2.2.1, by decide, by decide,
    hc.2.2.2 "abc%" (by decide) (by decide)⟩

/-- Characterization of a successful quality-report run. -/
theorem data_quality_main_ok (fs : FS) (o : FS × QualityReport)
    (h : data_quality_main fs = Except.ok o) :
    ∃ df : Table, fs.processed = some df ∧ df.cols.contains "target" = true ∧
      o = ({ fs with report := some (mkReport df) }, mkReport df) := by
  unfold data_quality_main at h
  cases hp : fs.processed with
  | none => rw [hp] at h; exact absurd h (by simp)
  | some df =>
      rw [hp] at h
      simp only [] at h
      by_cases ht : df.cols.contains "target" = true
      · rw [if_pos ht] at h
        exact ⟨df, rfl, ht, (Except.ok.inj h).symm⟩
      · rw [if_neg ht] at h
        exact absurd h (by simp)

/-- C9: the quality reporter is deterministic — two runs over the same input
table produce the same report — it never modifies the input table, and it is
idempotent: running it again on the state it produced yields the same state
and the same report. -/
theorem c9_quality_report_pure :
    (∀ fs fs2 : FS, ∀ o o2 : FS × QualityReport,
        fs.processed = fs2.processed →
        data_quality_main fs = Except.ok o →
        data_quality_main fs2 = Except.ok o2 → o.2 = o2.2) ∧
    (∀ fs : FS, ∀ o : FS × QualityReport,
        data_quality_main fs = Except.ok o → o.1.processed = fs.processed) ∧
    (∀ fs : FS, ∀ o : FS × QualityReport,
        data_quality_main fs = Except.ok o →
        data_quality_main o.1 = Except.ok (o.1, o.2)) := by
  refine ⟨?_, ?_, ?_⟩
  · intro fs fs2 o o2 hpe h1 h2
    obtain ⟨df, hp1, ht1, ho1⟩ := data_quality_main_ok fs o h1
    obtain ⟨df2, hp2, ht2, ho2⟩ := data_quality_main_ok fs2 o2 h2
    have hdf : df = df2 := by
      rw [hp1, hp2] at hpe
      exact Option.some.inj hpe
    subst hdf
    rw [ho1, ho2]
  · intro fs o h
    obtain ⟨df, hp, ht, ho⟩ := data_quality_main_ok fs o h
    rw [ho]
  · intro fs o h
    obtain ⟨df, hp, ht, ho⟩ := data_quality_main_ok fs o h
    rw [ho]
    show data_quality_main { fs with report := some (mkReport df) } = _
    unfold data_quality_main
    have hp2 : ({ fs with report := some (mkReport df) } : FS).processed = some df := hp
    rw [hp2]
    simp only []
    rw [if_pos ht]

/-- Witness for C9 at a concrete filesystem state holding a small processed
table. -/
theorem c9_witness :
    ((({ exampleFS with report := some (mkReport exampleProcessed) } : FS),
        mkReport exampleProcessed).1.processed = exampleFS.processed) ∧
    data_quality_main ({ exampleFS with report := some (mkReport exampleProcessed) } : FS) =
      Except.ok ({ exampleFS with report := some (mkReport exampleProcessed) },
        mkReport exampleProcessed) := by
  have hok : data_quality_main exampleFS = Except.ok
      ({ exampleFS with report := some (mkReport exampleProcessed) },
        mkReport exampleProcessed) := rfl
  exact ⟨c9_quality_report_pure.2.1 exampleFS _ hok,
    c9_quality_report_pure.2.2 exampleFS _ hok⟩

end CreditDec
